import Mathlib

/-!
Verification development for the grug-ls language server core.

This file gives a shallow embedding, in Lean, of the parts of the server
exercised by the specification claims:

* the syntax-tree interface the server consumes (tree-sitter nodes:
  kind, optional field tag, source range, covered text, ordered children),
* the document model (src/server/document.rs),
* scope resolution (get_spot_info, src/server/utils.rs),
* the range-tracking schema loader (src/server/mod_api/parse.rs) together
  with a model of the serde decoding of the schema record types
  (src/server/mod_api.rs),
* completion routing (src/server/completion.rs),
* the missing-document behaviour of the hover / goto-definition / rename
  handlers (src/server/hover.rs, goto_definition.rs, rename.rs),
* variable rename (src/server/rename.rs) and the application of the
  text edits it returns.

Modelling conventions, used throughout and noted again at each definition:

* Trees produced by the external parsers (tree-sitter-grug,
  tree-sitter-json) are values of the inductive `STree`.  Every node
  stores the text of the source slice it covers (`text`), standing for
  the Rust expression `&content[node.byte_range()]`; `String.from_utf8`
  on such a slice is always `Ok` in the model because Lean strings are
  well-formed by construction.
* Rust `HashMap<String, V>` is modelled as an insertion-ordered
  association list `SMap V`; `insert` replaces an existing binding.
  HashMap iteration order is unspecified in Rust and is modelled as
  insertion order.
* A Rust `panic!` / failed `unwrap` / failed `assert!` that the claims
  depend on is modelled explicitly with the `PRes` result type; unwraps
  that the external grammar guarantees can never fire and that no claim
  depends on are modelled as skipping the construct, with a comment at
  the spot.
-/

namespace GrugLS

/-- A tree-sitter point: row and column (src uses tree_sitter::Point). -/
structure TSPoint where
  row : Nat
  column : Nat
deriving DecidableEq, Repr

/-- A tree-sitter range (tree_sitter::Range): byte offsets plus points. -/
structure TSRange where
  startByte : Nat
  endByte : Nat
  startPoint : TSPoint
  endPoint : TSPoint
deriving DecidableEq, Repr

/-- `default_range()` from src/server/mod_api.rs (all zeros): the serde
default for the `range` fields that are `#[serde(skip)]`. -/
def defaultRange : TSRange :=
  { startByte := 0, endByte := 0,
    startPoint := { row := 0, column := 0 },
    endPoint := { row := 0, column := 0 } }

/-- A node of a concrete syntax tree as produced by the external
tree-sitter parsers.  `kind` is the node kind string (for anonymous
token nodes, the token text), `tag` is the field name this node is
attached to in its parent (tree-sitter field), `rng` its source range,
`text` the source slice it covers, `children` all children in source
order (named and anonymous, as returned by `Node::children`). -/
inductive STree where
  | mk (kind : String) (tag : Option String) (rng : TSRange) (text : String)
       (children : List STree)
deriving Repr

def STree.kind : STree → String
  | .mk k _ _ _ _ => k

def STree.tag : STree → Option String
  | .mk _ tg _ _ _ => tg

def STree.rng : STree → TSRange
  | .mk _ _ r _ _ => r

def STree.text : STree → String
  | .mk _ _ _ tx _ => tx

def STree.children : STree → List STree
  | .mk _ _ _ _ cs => cs

/-- `Node::child(i)`: the i-th child, named or anonymous. -/
def STree.child (t : STree) (i : Nat) : Option STree :=
  t.children[i]?

/-- `Node::child_by_field_name(f)`: the first child whose field tag is `f`. -/
def STree.childByField (t : STree) (f : String) : Option STree :=
  t.children.find? (fun c => c.tag == some f)

/-- `Node::children_by_field_name(f)`: all children whose field tag is `f`,
in source order. -/
def STree.childrenByField (t : STree) (f : String) : List STree :=
  t.children.filter (fun c => c.tag == some f)

/-- The node reached from `t` by the path of child indices `p`
(index into all children, named and anonymous). -/
def STree.subtreeAt (t : STree) : List Nat → Option STree
  | [] => some t
  | i :: p => match t.children[i]? with
    | some c => c.subtreeAt p
    | none => none

/-- The text of the node at path `p` (the source slice it covers). -/
def STree.textAt (t : STree) (p : List Nat) : Option String :=
  (t.subtreeAt p).map STree.text

/-- Result of running a piece of Rust that can `panic!` (failed
`unwrap` / `assert!`): either the panic, or a value. -/
inductive PRes (α : Type) where
  | panic : PRes α
  | ok : α → PRes α
deriving DecidableEq, Repr

/-- Rust `HashMap<String, α>` modelled as an insertion-ordered
association list with replace-on-insert. -/
abbrev SMap (α : Type) : Type := List (String × α)

def SMap.empty {α : Type} : SMap α := []

/-- `HashMap::insert`: replace the binding of `k` if present, else add it. -/
def SMap.insert {α : Type} (m : SMap α) (k : String) (v : α) : SMap α :=
  if m.any (fun e => e.1 == k) then
    m.map (fun e => if e.1 == k then (k, v) else e)
  else
    m ++ [(k, v)]

/-- `HashMap::get`. -/
def SMap.get? {α : Type} (m : SMap α) (k : String) : Option α :=
  (m.find? (fun e => e.1 == k)).map (fun e => e.2)

/-! ## Document model (src/server/document.rs) -/

/-- The closed `Type` sum of src/server/document.rs (named `GType` here
because `Type` is reserved in Lean). -/
inductive GType where
  | I32
  | F32
  | ID
  | Bool
  | String
  | Resource
  | Entity (name : String)
deriving DecidableEq, Repr

/-- `Type::from_str` (document.rs lines 33-46): the fixed token set,
with `Entity(token)` as the fallback for any other token. -/
def gtypeFromStr (s : String) : GType :=
  match s with
  | "f32" => .F32
  | "i32" => .I32
  | "string" => .String
  | "bool" => .Bool
  | "id" => .ID
  | "resource" => .Resource
  | _ => .Entity s

/-- `Type::as_str`. -/
def gtypeAsStr : GType → String
  | .ID => "id"
  | .Bool => "bool"
  | .String => "string"
  | .I32 => "i32"
  | .F32 => "f32"
  | .Resource => "resource"
  | .Entity s => s

/-- `Variable` of document.rs: name, type and declaration range. -/
structure Variable where
  name : String
  type : GType
  range : TSRange
deriving DecidableEq, Repr

/-- `Variable::format`: "name: type". -/
def Variable.format (v : Variable) : String :=
  v.name ++ ": " ++ gtypeAsStr v.type

/-- `Function` of document.rs: helper or on-function record. -/
structure Function where
  name : String
  params : List Variable
  retType : Option GType
  range : TSRange
deriving DecidableEq, Repr

/-- `parser_utils::parse_variable_declaration` (document.rs lines
137-165).  Accepts only `variable_declaration` / `function_parameter`
nodes.  In Rust a node of the right kind without a `name` or `type`
field child would panic (unwrap); the grammar always supplies both, and
no claim depends on that case, so it is modelled as `none`.  The UTF-8
checks on the name and type slices cannot fail in the model. -/
def parseVariableDeclaration (node : STree) : Option Variable :=
  if node.kind == "variable_declaration" || node.kind == "function_parameter" then
    match node.childByField "name", node.childByField "type" with
    | some nm, some ty =>
        some { name := nm.text, type := gtypeFromStr ty.text, range := node.rng }
    | _, _ => none
  else
    none

/-- The return-type decoding used inside the `parse_functions!` macro of
`Document::new` (document.rs lines 206-214).  Note that it is a local
match, not `Type::from_str`: "i32" maps to `F32`, and every token
outside {f32, i32, id, string} (including "bool" and "resource") yields
no return type at all. -/
def parseRetTypeTok (s : String) : Option GType :=
  match s with
  | "f32" => some .F32
  | "i32" => some .F32
  | "id" => some .ID
  | "string" => some .String
  | _ => none

/-- The parameter extraction closure inside `parse_functions!`
(document.rs lines 226-242): reads the `name` and `type` field children
of one `param` child and decodes them with `Type::from_str`.  The Rust
closure unwraps the two field children (grammar-guaranteed; modelled as
`none`) and returns `None` only on a UTF-8 failure (never fires in the
model). -/
def parseParam (param : STree) : Option Variable :=
  match param.childByField "name", param.childByField "type" with
  | some nm, some ty =>
      some { name := nm.text, type := gtypeFromStr ty.text, range := param.rng }
  | _, _ => none

/-- The per-declaration body of the `parse_functions!` macro
(document.rs lines 198-252): return type from the first `ret_type`
field child through the local token match, parameters as
`children_by_field_name("param").find_map(..)` — i.e. at most the first
parameter that decodes — and the declaration's own range. -/
def parseFunctionDecl (decl : STree) : Option Function :=
  match decl.childByField "name" with
  | none => none  -- Rust unwraps here; grammar-guaranteed
  | some nm =>
      let retType : Option GType :=
        ((decl.childByField "ret_type").map (fun rt => parseRetTypeTok rt.text)).join
      let params : List Variable :=
        ((decl.childrenByField "param").findSome? parseParam).toList
      some { name := nm.text, params := params, retType := retType,
             range := decl.rng }

/-- The filter of `parse_functions!`: top-level `function_declaration`
nodes whose `name` field child has the requested identifier kind.  The
Rust filter unwraps the `name` child (grammar-guaranteed; modelled as
excluding the node). -/
def parseFunctions (tree : STree) (nodeType : String) : List Function :=
  ((tree.children.filter (fun c =>
      c.kind == "function_declaration" &&
      (match c.childByField "name" with
       | some n => n.kind == nodeType
       | none => false))).filterMap parseFunctionDecl)

/-- `Document` of document.rs.  `content` is not stored separately: each
node of `tree` carries its own source slice as `STree.text`. -/
structure Document where
  entityType : String
  tree : STree
  globalVars : List Variable
  helpers : List Function
  onFunctions : List Function
deriving Repr

/-- Rust `name.split('-').last()`, over the characters of the name
(the separator `-` and the suffix below are ASCII, so the byte-level
split in the source and this character-level split agree). -/
def lastDashSegment (s : List Char) : List Char :=
  s.foldl (fun acc c => if c = '-' then [] else acc ++ [c]) []

/-- Rust `str::strip_suffix`: `some` of the text with the suffix
removed when the suffix matches, `none` otherwise. -/
def stripSuffixChars (s suffix : List Char) : Option (List Char) :=
  if suffix.isSuffixOf s then some (s.take (s.length - suffix.length))
  else none

/-- `Document::new` (document.rs lines 169-276).  The parse call itself
is external; the model receives the resulting tree.  Global variables
are the top-level `variable_declaration` children that decode (decode
failures are dropped: `.filter(is_ok)`); helpers and on-functions come
from `parse_functions!`.  The entity type splits the document name on
`-`, takes the last segment and strips the `.grug` suffix — the Rust
code unwraps that `strip_suffix`, so a name whose last segment does not
end in `.grug` panics; this is the `PRes.panic` case. -/
def Document.new (tree : STree) (name : String) : PRes Document :=
  let globalVars : List Variable :=
    (tree.children.filter (fun c => c.kind == "variable_declaration")).filterMap
      parseVariableDeclaration
  match stripSuffixChars (lastDashSegment name.data) ".grug".data with
  | none => PRes.panic
  | some entityType =>
      PRes.ok
        { entityType := String.mk entityType
          tree := tree
          globalVars := globalVars
          helpers := parseFunctions tree "helper_identifier"
          onFunctions := parseFunctions tree "on_identifier" }

/-! ## Scope resolution (src/server/utils.rs, get_spot_info) -/

/-- The `handle!` macro body of `get_spot_info` (utils.rs lines 56-74):
a node contributes a Variable when it is a `variable_declaration` or a
`function_parameter` and `parse_variable_declaration` succeeds. -/
def handleNode (c : STree) : List Variable :=
  (if c.kind == "variable_declaration" then (parseVariableDeclaration c).toList
   else []) ++
  (if c.kind == "function_parameter" then (parseVariableDeclaration c).toList
   else [])

/-- One level of the `get_spot_info` walk (utils.rs lines 76-82): handle
the level's own node (child index `i` of `par`) first, then its
preceding siblings walking backward through `prev_sibling`, i.e.
indices i-1 down to 0. -/
def collectLevel (par : STree) (i : Nat) : List Variable :=
  ((List.range (i + 1)).reverse).flatMap (fun j =>
    match par.children[j]? with
    | some c => handleNode c
    | none => [])

/-- The ancestor walk of `get_spot_info` (utils.rs lines 48-85),
expressed on the reversed path of the query node: `rp = []` means the
current node is the root (no parent, loop ends); `rp = i :: qrev` means
the current node is child `i` of the node at reversed path `qrev`.
A parent of kind `source_file` is skipped without collecting (top-level
declarations are covered by the global seed); otherwise the level
collects self-then-preceding-siblings and the walk moves outward. -/
def spotWalkRev (root : STree) : List Nat → List Variable
  | [] => []
  | i :: qrev =>
      match root.subtreeAt qrev.reverse with
      | none => []  -- unreachable for a genuine node handle
      | some par =>
          if par.kind == "source_file" then spotWalkRev root qrev
          else collectLevel par i ++ spotWalkRev root qrev

/-- `get_spot_info` (utils.rs lines 42-88): seed with all global
variables of the document in source order, then run the ancestor walk
from the query node, given by its child-index path from the root. -/
def getSpotInfo (doc : Document) (p : List Nat) : List Variable :=
  doc.globalVars ++ spotWalkRev doc.tree p.reverse

/-! ## Schema record types (src/server/mod_api.rs) -/

/-- `GrugOnFunction`: description plus the `#[serde(skip)]` range. -/
structure GrugOnFunction where
  description : String
  range : TSRange
deriving DecidableEq, Repr

/-- `GrugEntity`: description, on-function map, and its own range. -/
structure GrugEntity where
  description : String
  onFunctions : SMap GrugOnFunction
  range : TSRange
deriving DecidableEq, Repr

/-- `GrugDetailedType` (mod_api.rs lines 58-75): the closed detailed
type sum with the untagged `Entity` fallback carrying the raw tag. -/
inductive GrugDetailedType where
  | String
  | F32
  | I32
  | ID
  | Bool
  | Resource (resourceExtension : String)
  | Entity (tag : String)
deriving DecidableEq, Repr

/-- `GrugArgument` (mod_api.rs lines 91-117): internally tagged by the
"type" key, with the untagged `Unknown` fallback keeping the raw tag. -/
inductive GrugArgument where
  | String (name : String)
  | I32 (name : String)
  | F32 (name : String)
  | ID (name : String)
  | Bool (name : String)
  | Resource (name : String) (resourceExtension : String)
  | Entity (name : String) (entityType : String)
  | Unknown (name : String) (tag : String)
deriving DecidableEq, Repr

/-- `GrugGameFunction`: description (defaulted), arguments (defaulted),
optional return type, and the `#[serde(skip)]` range. -/
structure GrugGameFunction where
  description : String
  arguments : List GrugArgument
  returnType : Option GrugDetailedType
  range : TSRange
deriving DecidableEq, Repr

/-- `ModApi` (the SchemaStore): entity map and game-function map. -/
structure ModApi where
  entities : SMap GrugEntity
  gameFunctions : SMap GrugGameFunction
deriving DecidableEq, Repr

/-- `default_description()`: the serde default for missing descriptions. -/
def defaultDescription : String := "<NO DESCRIPTION>"

/-! ## Model of the serde decoding of schema slices

`ModApi::from_json` (src/server/mod_api/parse.rs) decodes the byte
slice covered by a value node with `serde_json::from_slice`.  The model
decodes the corresponding syntax subtree instead: the slice is exactly
the text the subtree covers, so a structural decoder over the subtree
models the serde decoder over the slice.  JSON string escapes are not
interpreted (none of the developments below exercise them), and a
duplicate key — which serde_json rejects — is modelled as
last-binding-wins. -/

/-- The content of a JSON `string` node: tree-sitter-json wraps the
content between two quote token children, so the content is the text of
child 1 of the string node (empty for the two-children empty string). -/
def jsonStringContent (v : STree) : String :=
  match v.children with
  | [_, c, _] => c.text
  | _ => ""

/-- Decode a JSON value node as a Rust `String` field. -/
def decodeStringField (v : STree) : Option String :=
  if v.kind == "string" then some (jsonStringContent v) else none

/-- The `pair` children of a JSON `object` node together with their key
content and value node, skipping the `{` / `,` / `}` tokens.  Pairs
whose key is not a string are not produced by the JSON grammar. -/
def objectPairs (v : STree) : List (String × STree) :=
  v.children.filterMap (fun c =>
    if c.kind == "pair" then
      match c.childByField "key", c.childByField "value" with
      | some k, some val => some (jsonStringContent k, val)
      | _, _ => none
    else none)

/-- The element value nodes of a JSON `array` node (children that are
not the `[` / `,` / `]` tokens). -/
def arrayElems (v : STree) : List STree :=
  v.children.filter (fun c => c.kind != "[" && c.kind != "]" && c.kind != ",")

/-- serde decoding of `GrugOnFunction` from a value subtree: a JSON
object whose optional "description" member must be a string; unknown
members are ignored; a missing description takes the default.  The
range field is `#[serde(skip)]` and takes `default_range()`. -/
def decodeOnFunction (v : STree) : Option GrugOnFunction :=
  if v.kind == "object" then
    (objectPairs v).foldlM (fun acc kv =>
      if kv.1 == "description" then
        (decodeStringField kv.2).map (fun d => { acc with description := d })
      else some acc)
      { description := defaultDescription, range := defaultRange }
  else none

/-- serde decoding of `GrugDetailedType`: a JSON string is matched
against the renamed unit variants, any other string falling back to the
untagged `Entity` variant; the `Resource` variant decodes from the
externally tagged form {"resource": {"resource_extension": s}}. -/
def decodeDetailedType (v : STree) : Option GrugDetailedType :=
  if v.kind == "string" then
    some (match jsonStringContent v with
      | "string" => .String
      | "f32" => .F32
      | "i32" => .I32
      | "id" => .ID
      | "bool" => .Bool
      | s => .Entity s)
  else if v.kind == "object" then
    match objectPairs v with
    | [("resource", payload)] =>
        if payload.kind == "object" then
          match (objectPairs payload).find? (fun kv => kv.1 == "resource_extension") with
          | some (_, ext) => (decodeStringField ext).map (fun e => .Resource e)
          | none => none
        else none
    | _ => none
  else none

/-- Look up the decoded string value of member `k` of an object's pair
list (last binding wins, see the model note on duplicates). -/
def memberString (pairs : List (String × STree)) (k : String) : Option (Option String) :=
  match pairs.filter (fun kv => kv.1 == k) with
  | [] => some none
  | l => match l.getLast? with
    | some (_, v) => (decodeStringField v).map (fun s => some s)
    | none => none

/-- serde decoding of `GrugArgument` (internally tagged by "type"):
the tag member selects the variant; every variant requires a string
"name"; `resource` / `entity` require their extra member; an unknown
tag falls back to the untagged `Unknown {name, type}` variant. -/
def decodeArgument (v : STree) : Option GrugArgument :=
  if v.kind == "object" then
    let pairs := objectPairs v
    match memberString pairs "type" with
    | some (some tag) =>
        (match memberString pairs "name" with
         | some (some name) =>
             (match tag with
              | "string" => some (.String name)
              | "i32" => some (.I32 name)
              | "f32" => some (.F32 name)
              | "id" => some (.ID name)
              | "bool" => some (.Bool name)
              | "resource" =>
                  (match memberString pairs "resource_extension" with
                   | some (some ext) => some (.Resource name ext)
                   | _ => none)
              | "entity" =>
                  (match memberString pairs "entity_type" with
                   | some (some et) => some (.Entity name et)
                   | _ => none)
              | t => some (.Unknown name t))
         | _ => none)
    | _ => none
  else none

/-- serde decoding of `GrugGameFunction` from a value subtree:
description (string, defaulted), arguments (array of `GrugArgument`,
defaulted to []), return_type (optional `GrugDetailedType`); unknown
members ignored; the skipped range takes `default_range()`. -/
def decodeGameFunction (v : STree) : Option GrugGameFunction :=
  if v.kind == "object" then
    let pairs := objectPairs v
    match memberString pairs "description" with
    | none => none
    | some desc =>
        let args : Option (List GrugArgument) :=
          match (pairs.filter (fun kv => kv.1 == "arguments")).getLast? with
          | none => some []
          | some (_, av) =>
              if av.kind == "array" then (arrayElems av).mapM decodeArgument
              else none
        match args with
        | none => none
        | some arguments =>
            let ret : Option (Option GrugDetailedType) :=
              match (pairs.filter (fun kv => kv.1 == "return_type")).getLast? with
              | none => some none
              | some (_, rv) => (decodeDetailedType rv).map (fun r => some r)
            match ret with
            | none => none
            | some returnType =>
                some { description := desc.getD defaultDescription,
                       arguments := arguments,
                       returnType := returnType,
                       range := defaultRange }
  else none

/-! ## The range-tracking loader (src/server/mod_api/parse.rs) -/

/-- The loop body list of `ModApi::parse_game_functions` (parse.rs lines
34-63), walking the children of the "game_functions" object.  A child
that is not a `pair`, has no `key` field, whose key is not a `string`,
whose key has no content child, or has no `value` field is skipped
individually (`continue`).  A value whose serde decode fails hits the
`let Ok(..) = .. else { return; }` at lines 57-59: the function returns
with the map accumulated so far, dropping all remaining entries.  On
success the decoded record is stamped with the range of the whole pair
(`func_entry.range()`, line 61) and inserted under the key content. -/
def parseGameFunctionsList :
    List STree → SMap GrugGameFunction → SMap GrugGameFunction
  | [], out => out
  | fe :: rest, out =>
      if fe.kind == "pair" then
        match fe.childByField "key" with
        | none => parseGameFunctionsList rest out
        | some key =>
            if key.kind == "string" then
              match key.child 1 with
              | none => parseGameFunctionsList rest out
              | some keyContent =>
                  match fe.childByField "value" with
                  | none => parseGameFunctionsList rest out
                  | some obj =>
                      match decodeGameFunction obj with
                      | none => out  -- Rust: return, not continue
                      | some gf =>
                          parseGameFunctionsList rest
                            (out.insert keyContent.text { gf with range := fe.rng })
            else parseGameFunctionsList rest out
      else parseGameFunctionsList rest out

/-- `ModApi::parse_game_functions` (parse.rs lines 25-64): no-op unless
the entry node is an `object`. -/
def parseGameFunctions (entry : STree) (out : SMap GrugGameFunction) :
    SMap GrugGameFunction :=
  if entry.kind == "object" then parseGameFunctionsList entry.children out
  else out

/-- The `on_functions` inner loop of `ModApi::parse_entity` (parse.rs
lines 99-129).  A child without a `key` field, with a non-string key,
without a `value` field, with a non-object value, or whose value fails
the serde decode is skipped individually (`continue`).  The decoded
record is stamped with the range of the entry (`func_entry.range()`,
line 126).  `func_name.child(1).unwrap()` at line 107 is a panic when
the string node has no child 1. -/
def parseOnFunctionsList :
    List STree → SMap GrugOnFunction → PRes (SMap GrugOnFunction)
  | [], m => .ok m
  | fe :: rest, m =>
      match fe.childByField "key" with
      | none => parseOnFunctionsList rest m
      | some fname =>
          if fname.kind == "string" then
            match fname.child 1 with
            | none => .panic  -- unwrap at parse.rs line 107
            | some nameContent =>
                match fe.childByField "value" with
                | none => parseOnFunctionsList rest m
                | some obj =>
                    if obj.kind == "object" then
                      match decodeOnFunction obj with
                      | none => parseOnFunctionsList rest m
                      | some onf =>
                          parseOnFunctionsList rest
                            (m.insert nameContent.text { onf with range := fe.rng })
                    else parseOnFunctionsList rest m
          else parseOnFunctionsList rest m

/-- The main loop of `ModApi::parse_entity` (parse.rs lines 72-133):
fold over the children of the entity's value object, updating the
description and the on-function map.  Non-`pair` children are skipped;
for a `pair`, the `key` field, its content child and the `value` field
are unwrapped — a panic when absent (lines 76-80). -/
def parseEntityList :
    List STree → String → SMap GrugOnFunction →
    PRes (String × SMap GrugOnFunction)
  | [], desc, onf => .ok (desc, onf)
  | c :: rest, desc, onf =>
      if c.kind == "pair" then
        match c.childByField "key" with
        | none => .panic  -- unwrap at parse.rs line 76
        | some key =>
            match key.child 1 with
            | none => .panic  -- unwrap at parse.rs line 77
            | some keyContent =>
                match c.childByField "value" with
                | none => .panic  -- unwrap at parse.rs line 80
                | some obj =>
                    if keyContent.text == "description" then
                      if obj.kind == "string" then
                        match obj.child 1 with
                        | none => .panic  -- unwrap at parse.rs line 87
                        | some descContent =>
                            parseEntityList rest descContent.text onf
                      else parseEntityList rest desc onf
                    else if keyContent.text == "on_functions" then
                      if obj.kind == "object" then
                        match parseOnFunctionsList obj.children onf with
                        | .panic => .panic
                        | .ok onf2 => parseEntityList rest desc onf2
                      else parseEntityList rest desc onf
                    else parseEntityList rest desc onf
      else parseEntityList rest desc onf

/-- `ModApi::parse_entity` (parse.rs lines 66-140).  The function
asserts that the value node is an `object` (line 67) — a panic on any
other kind.  The returned entity is stamped with `node.range()`, i.e.
the range of the *value object*, not of the defining pair (line 138). -/
def parseEntity (node : STree) : PRes GrugEntity :=
  if node.kind == "object" then
    match parseEntityList node.children defaultDescription SMap.empty with
    | .panic => .panic
    | .ok (desc, onf) =>
        .ok { description := desc, onFunctions := onf, range := node.rng }
  else .panic  -- assert_eq! at parse.rs line 67

/-- The loop of `ModApi::parse_entities` (parse.rs lines 146-172):
children that are not pairs, lack a `key` field, have a non-string key,
lack a key content child, or lack a `value` field are skipped
individually (all are let-else `continue`s); the value is then handed
to `parse_entity`, whose panic propagates. -/
def parseEntitiesList :
    List STree → SMap GrugEntity → PRes (SMap GrugEntity)
  | [], out => .ok out
  | ee :: rest, out =>
      if ee.kind == "pair" then
        match ee.childByField "key" with
        | none => parseEntitiesList rest out
        | some key =>
            if key.kind == "string" then
              match key.child 1 with
              | none => parseEntitiesList rest out
              | some keyContent =>
                  match ee.childByField "value" with
                  | none => parseEntitiesList rest out
                  | some obj =>
                      match parseEntity obj with
                      | .panic => .panic
                      | .ok entity =>
                          parseEntitiesList rest (out.insert keyContent.text entity)
            else parseEntitiesList rest out
      else parseEntitiesList rest out

/-- `ModApi::parse_entities` (parse.rs lines 141-173): no-op unless the
entry node is an `object`. -/
def parseEntities (entry : STree) (out : SMap GrugEntity) :
    PRes (SMap GrugEntity) :=
  if entry.kind == "object" then parseEntitiesList entry.children out
  else .ok out

/-- The top-level loop of `ModApi::from_json` (parse.rs lines 192-229):
walk the pairs of the root object; the key slice — quotes included —
selects "entities" / "game_functions"; a non-object value or a missing
value field skips the pair; any other key is merely logged. -/
def fromJsonList :
    List STree → SMap GrugEntity → SMap GrugGameFunction →
    PRes (SMap GrugEntity × SMap GrugGameFunction)
  | [], ents, gfs => .ok (ents, gfs)
  | entry :: rest, ents, gfs =>
      if entry.kind == "pair" then
        match entry.childByField "key" with
        | none => fromJsonList rest ents gfs
        | some key =>
            if key.text == "\"entities\"" then
              match entry.childByField "value" with
              | none => fromJsonList rest ents gfs
              | some value =>
                  if value.kind == "object" then
                    match parseEntities value ents with
                    | .panic => .panic
                    | .ok ents2 => fromJsonList rest ents2 gfs
                  else fromJsonList rest ents gfs
            else if key.text == "\"game_functions\"" then
              match entry.childByField "value" with
              | none => fromJsonList rest ents gfs
              | some value =>
                  if value.kind == "object" then
                    fromJsonList rest ents (parseGameFunctions value gfs)
                  else fromJsonList rest ents gfs
            else fromJsonList rest ents gfs  -- unknown key: logged only
      else fromJsonList rest ents gfs

/-- `ModApi::from_json` (parse.rs lines 175-237), starting from the
tree produced by the external JSON parser: `None` when the document has
no first child or its first child is not an `object`; otherwise the
top-level walk runs and the two maps form the `ModApi`. -/
def fromJson (root : STree) : PRes (Option ModApi) :=
  match root.child 0 with
  | none => .ok none
  | some docRoot =>
      if docRoot.kind == "object" then
        match fromJsonList docRoot.children SMap.empty SMap.empty with
        | .panic => .panic
        | .ok (ents, gfs) =>
            .ok (some { entities := ents, gameFunctions := gfs })
      else .ok none

/-! ## Formatting helpers used by completion and hover -/

/-- `Function::format` (document.rs lines 86-107):
`name(p1: t1, p2: t2) ret`. -/
def Function.format (f : Function) : String :=
  f.name ++ "(" ++
    String.intercalate ", "
      (f.params.map (fun p => p.name ++ ": " ++ gtypeAsStr p.type)) ++ ")" ++
  (match f.retType with
   | some rt => " " ++ gtypeAsStr rt
   | none => "")

/-- `GrugArgument::get_name` (mod_api.rs lines 120-131). -/
def grugArgGetName : GrugArgument → String
  | .String n | .I32 n | .F32 n | .ID n | .Bool n
  | .Resource n _ | .Entity n _ | .Unknown n _ => n

/-- `GrugArgument::get_type` (mod_api.rs lines 133-144); note Resource
and Entity arguments both map to `Type::String` in the source. -/
def grugArgGetType : GrugArgument → GType
  | .String _ => .String
  | .I32 _ => .I32
  | .F32 _ => .F32
  | .ID _ => .ID
  | .Bool _ => .Bool
  | .Resource _ _ => .String
  | .Entity _ _ => .String
  | .Unknown _ tag => .Entity tag

/-- `GrugDetailedType::as_type` (mod_api.rs lines 78-88). -/
def detailedTypeAsType : GrugDetailedType → GType
  | .ID => .ID
  | .F32 => .F32
  | .Bool => .Bool
  | .Entity e => .Entity e
  | .I32 => .I32
  | .String => .String
  | .Resource _ => .Resource

/-- `GrugGameFunction::format` (mod_api.rs lines 170-193). -/
def GrugGameFunction.format (gf : GrugGameFunction) (name : String) : String :=
  name ++ "(" ++
    String.intercalate ", "
      (gf.arguments.map (fun a =>
        grugArgGetName a ++ ": " ++ gtypeAsStr (grugArgGetType a))) ++
    ")" ++
  (match gf.returnType with
   | some rt => " " ++ gtypeAsStr (detailedTypeAsType rt)
   | none => "")

/-! ## Completion (src/server/completion.rs) -/

/-- The subset of `lsp_types::CompletionItemKind` values the server uses. -/
inductive CompletionKind where
  | variable
  | function
  | snippet
  | class_
  | typeParameter
deriving DecidableEq, Repr

/-- The fields of `lsp_types::CompletionItem` the server fills in. -/
structure CompletionItem where
  label : String
  detail : Option String := none
  documentation : Option String := none
  insertText : Option String := none
  insertTextIsSnippet : Bool := false
  kind : Option CompletionKind := none
deriving DecidableEq, Repr

/-- `PRIMITIVE_TYPES` (document.rs lines 5-20), in declaration order
(HashMap iteration order is unspecified; modelled as this order). -/
def primitiveTypes : List (String × String) :=
  [("resource", "A resource, such as an image or audio file"),
   ("f32", "A 32 bit floating point number"),
   ("i32", "A 32 bit integer"),
   ("id", "An opaque type. It can represent anything external to the language."),
   ("entity", "Holds names of types of entities (e.g. modname:entityname)"),
   ("string", "Represents text")]

/-- `KEYWORD_COMPLETIONS` (completion.rs lines 23-39):
label, snippet body, documentation. -/
def keywordCompletions : List (String × String × String) :=
  [("if", "if $\x7b1:condition\x7d \x7b\n\t$0\n\x7d",
    "Executes code if the condition is true"),
   ("while", "while $\x7b1:condition\x7d \x7b\n\t$0\n\x7d",
    "Continues repeating code while the condition is true"),
   ("return", "return $\x7b1:value\x7d",
    "Stops executing the current function, and returns a specific value")]

/-- The call-snippet string built for a game function in
`Server::get_completion` (completion.rs lines 78-85):
`name(\x241:arg1, \x242:arg2)` in snippet placeholder syntax. -/
def gameFuncSnippet (name : String) (gf : GrugGameFunction) : String :=
  name ++ "(" ++
    String.intercalate ", "
      (gf.arguments.enum.map (fun ia =>
        "$\x7b" ++ toString (ia.1 + 1) ++ ":" ++ grugArgGetName ia.2 ++ "\x7d")) ++
    ")"

/-- `Server::get_completion` (completion.rs lines 42-147): in-scope
variables, then document helpers, then schema game functions as call
snippets, then the static keyword snippets, and — when the located
node's parent is the document root (`source_file`), or the node has no
parent — the schema on-functions of the document's entity type that the
document does not implement yet.  The query node is given by its
child-index path `p`. -/
def getCompletion (api : ModApi) (doc : Document) (p : List Nat)
    (_node : STree) : List CompletionItem :=
  (getSpotInfo doc p).map (fun v =>
    { label := v.name, detail := some v.format,
      kind := some .variable }) ++
  doc.helpers.map (fun h =>
    { label := h.name, detail := some h.format,
      kind := some .variable }) ++
  api.gameFunctions.map (fun nf =>
    { label := nf.1, detail := some (nf.2.format nf.1 ++ "\n"),
      documentation := some nf.2.description,
      insertText := some (gameFuncSnippet nf.1 nf.2),
      insertTextIsSnippet := true,
      kind := some .function }) ++
  keywordCompletions.map (fun kc =>
    { label := kc.1, insertText := some kc.2.1,
      insertTextIsSnippet := true,
      documentation := some kc.2.2,
      kind := some .snippet }) ++
  (if (if p.isEmpty then none
       else (doc.tree.subtreeAt (p.dropLast)).map STree.kind).getD "source_file"
        == "source_file" then
     match api.entities.get? doc.entityType with
     | some entity =>
         entity.onFunctions.filterMap (fun nf =>
           if doc.onFunctions.any (fun f => f.name == nf.1) then none
           else some { label := nf.1, detail := some nf.1,
                       documentation := some nf.2.description,
                       kind := some .function })
     | none => []
   else [])

/-- The type-position completion list of `Server::handle_completion`
(completion.rs lines 199-221): schema entity names, then the primitive
type names. -/
def typeItems (api : ModApi) : List CompletionItem :=
  api.entities.map (fun ne =>
    { label := ne.1, documentation := some ne.2.description,
      kind := some .class_ }) ++
  primitiveTypes.map (fun pt =>
    { label := pt.1, documentation := some pt.2,
      kind := some .typeParameter })

/-- The `is_type` scan of `Server::handle_completion` (completion.rs
lines 176-191) over the reversed characters of the line up to the
cursor: a `:` before any run of non-blank characters that follows a
blank sets `is_type`. -/
def scanIsTypeAux : List Char → Bool → Bool
  | [], _ => false
  | c :: rest, canSkip =>
      if c == ':' then true
      else if c == ' ' || c == '\t' then scanIsTypeAux rest true
      else if canSkip then false
      else scanIsTypeAux rest canSkip

/-- `is_type` for the part of the cursor's line before the cursor. -/
def scanIsType (linePrefix : String) : Bool :=
  scanIsTypeAux linePrefix.data.reverse false

/-- The completion decision of `Server::handle_completion`
(completion.rs lines 192-224), after the document and line have been
fetched: a `string` node suppresses completion entirely; otherwise the
`is_type` scan selects the type-position list; otherwise the general
list.  (The URI / UTF-8 / line-slicing plumbing of lines 155-175 is
outside this function; `linePrefix` is the line text before the
cursor.) -/
def completionDecision (api : ModApi) (doc : Document) (linePrefix : String)
    (p : List Nat) (node : STree) : List CompletionItem :=
  if node.kind == "string" then []
  else if scanIsType linePrefix then typeItems api
  else getCompletion api doc p node

/-! ## Per-request outcomes of hover / goto-definition / rename

The three handlers answer one request each.  For the claims about
missing documents only the *category* of the response matters, so the
model classifies the response: an ok response with a null result, an ok
response with a payload, an error response (`Response::new_err`), or a
panic (a failed unwrap/assert, which kills the single-threaded server).
The cursor-to-node resolution (`descendant_for_point_range`) is
performed by the external tree library; the model takes its result as
the optional path `nodeP` (`none` when the library returns `None`,
which the handlers unwrap). -/

inductive LspOutcome where
  | nullResponse
  | okResponse
  | errorResponse
  | panicked
deriving DecidableEq, Repr

/-- The server state the three handlers consult: the virtual
file-system existence set, the document map, and the schema store. -/
structure ServerState where
  files : List String
  documents : SMap Document
  modApi : ModApi

/-- `Server::get_hover` (hover.rs lines 41-97): for an `identifier`
node, first an exact-name match in the scope-resolution result
(formatted "name: type"), then a schema game-function signature.  (The
Rust argument match at lines 65-73 omits the `Unknown` variant and the
`format!` there differs slightly from `GrugGameFunction::format`; the
hover text is rebuilt here with the same per-variant type words.) -/
def getHover (api : ModApi) (doc : Document) (p : List Nat)
    (node : STree) : Option String :=
  if node.kind == "identifier" then
    match (getSpotInfo doc p).find? (fun v => v.name == node.text) with
    | some v => some (v.name ++ ": " ++ gtypeAsStr v.type)
    | none =>
        match api.gameFunctions.get? node.text with
        | some func =>
            some (node.text ++ "(" ++
              String.intercalate ", "
                (func.arguments.map (fun a =>
                  grugArgGetName a ++ ": " ++
                  (match a with
                   | .String _ => "string"
                   | .I32 _ => "i32"
                   | .F32 _ => "f32"
                   | .ID _ => "id"
                   | .Bool _ => "bool"
                   | .Resource _ _ => "resource"
                   | .Entity _ _ => "entity"
                   | .Unknown _ _ => "entity"))) ++ ")")
        | none => none
  else none

/-- `Server::handle_hover` (hover.rs lines 98-164).  A URI whose path is
not in the virtual file system answers with `send_null` (lines
104-107); a path that exists but has no document panics (`.unwrap()` at
line 109), as does an unresolvable node (line 121); otherwise the
response is ok when `get_hover` produced text and null when it did
not. -/
def handleHover (srv : ServerState) (path : String)
    (nodeP : Option (List Nat)) : LspOutcome :=
  if ¬ srv.files.contains path then .nullResponse
  else match srv.documents.get? path with
    | none => .panicked
    | some doc =>
        match nodeP with
        | none => .panicked
        | some p =>
            match doc.tree.subtreeAt p with
            | none => .panicked
            | some node =>
                match getHover srv.modApi doc p node with
                | none => .nullResponse
                | some _ => .okResponse

/-- The containment descent of `descendant_for_byte_range`: move into
the first child whose byte range contains `[s, e]` while one exists. -/
def descendBytes (s e : Nat) : STree → STree
  | .mk k tg r tx cs =>
      match descendBytesGo s e cs with
      | some u => u
      | none => .mk k tg r tx cs
where descendBytesGo (s e : Nat) : List STree → Option STree
  | [] => none
  | c :: cs =>
      if c.rng.startByte ≤ s ∧ e ≤ c.rng.endByte then some (descendBytes s e c)
      else descendBytesGo s e cs

/-- `tree.root_node().descendant_for_byte_range(s, e)`: the smallest
node whose byte range contains `[s, e]`. -/
def descendantForByteRange (t : STree) (s e : Nat) : Option STree :=
  if t.rng.startByte ≤ s ∧ e ≤ t.rng.endByte then
    some (descendBytes s e t)
  else none

/-- The navigation target produced by `Server::get_definition`
(goto_definition.rs lines 16-112): either a link into the current
document (declaration range and name-selection range) or a link into
the schema file at a stored range. -/
inductive GotoTarget where
  | ownDoc (targetRange : TSRange) (selectionRange : Option TSRange)
  | schemaFile (range : TSRange)
deriving DecidableEq, Repr

/-- `Server::get_definition`: scope variable (unless the identifier is
a callee), then schema entity, then schema game function; helper
identifiers resolve to the document's helper declaration; on
identifiers resolve into the schema entity of the document's entity
type.  The unwrap of `descendant_for_byte_range` (lines 29-33, 78-82)
is a panic when it resolves nothing. -/
def getDefinition (api : ModApi) (doc : Document) (p : List Nat)
    (node : STree) : PRes (Option GotoTarget) :=
  let isCall :=
    (if p.isEmpty then none
     else (doc.tree.subtreeAt (p.dropLast)).map STree.kind) == some "function_call"
  if node.kind == "identifier" then
    match
      (if ¬ isCall then
        (getSpotInfo doc p).find? (fun v => v.name == node.text)
       else none) with
    | some v =>
        match descendantForByteRange doc.tree v.range.startByte v.range.endByte with
        | none => .panic
        | some declNode =>
            .ok (some (.ownDoc declNode.rng
              ((declNode.childByField "name").map STree.rng)))
    | none =>
        match api.entities.get? node.text with
        | some entity => .ok (some (.schemaFile entity.range))
        | none =>
            match api.gameFunctions.get? node.text with
            | some func => .ok (some (.schemaFile func.range))
            | none => .ok none
  else if node.kind == "helper_identifier" then
    match doc.helpers.find? (fun f => f.name == node.text) with
    | some helper =>
        match descendantForByteRange doc.tree helper.range.startByte
            helper.range.endByte with
        | none => .panic
        | some declNode =>
            .ok (some (.ownDoc declNode.rng
              ((declNode.childByField "name").map STree.rng)))
    | none => .ok none
  else if node.kind == "on_identifier" then
    match api.entities.get? doc.entityType with
    | some entity =>
        match entity.onFunctions.get? node.text with
        | some onf => .ok (some (.schemaFile onf.range))
        | none => .ok none
    | none => .ok none
  else .ok none

/-- `Server::handle_goto_definition` (goto_definition.rs lines
113-172).  A URI whose path is not in the virtual file system answers
with `Response::new_err(InvalidRequest, ..)` — an error response, not a
null one (lines 130-140).  Otherwise a missing document or an
unresolvable node panics (unwraps at lines 142 and 149-153), a found
definition answers ok, and no definition answers ok-with-null. -/
def handleGotoDefinition (srv : ServerState) (path : String)
    (nodeP : Option (List Nat)) : LspOutcome :=
  if ¬ srv.files.contains path then .errorResponse
  else match srv.documents.get? path with
    | none => .panicked
    | some doc =>
        match nodeP with
        | none => .panicked
        | some p =>
            match doc.tree.subtreeAt p with
            | none => .panicked
            | some node =>
                match getDefinition srv.modApi doc p node with
                | .panic => .panicked
                | .ok (some _) => .okResponse
                | .ok none => .nullResponse

/-- `Server::rename` (rename.rs lines 249-338).  A URI whose path is
not in the virtual file system answers with
`Response::new_err(InvalidRequest, ..)` (lines 270-273).  Otherwise a
missing document or unresolvable node panics (unwraps at lines 275 and
282-286); a cursor on a non-identifier kind answers ok-with-null
(`edits = None`); an identifier matching an in-scope variable or a
document helper answers ok with a workspace edit (the edit lists
themselves are modelled by `renameVar` below); anything else answers
ok-with-null. -/
def handleRename (srv : ServerState) (path : String)
    (nodeP : Option (List Nat)) : LspOutcome :=
  if ¬ srv.files.contains path then .errorResponse
  else match srv.documents.get? path with
    | none => .panicked
    | some doc =>
        match nodeP with
        | none => .panicked
        | some p =>
            match doc.tree.subtreeAt p with
            | none => .panicked
            | some node =>
                if node.kind == "identifier" || node.kind == "on_identifier"
                    || node.kind == "helper_identifier" then
                  if ((getSpotInfo doc p).find?
                        (fun v => v.name == node.text)).isSome then .okResponse
                  else if (doc.helpers.find?
                        (fun f => f.name == node.text)).isSome then .okResponse
                  else .nullResponse
                else .nullResponse

/-! ## Rename (src/server/rename.rs)

The server returns a list of `TextEdit`s — (syntax range, replacement)
pairs over identifier-sized tokens — and the client splices them into
the text.  Token ranges are disjoint, so splicing the replacement over
a token's range is the same as replacing that token's text; an edit is
therefore modelled as the pair (path of the edited token, replacement
text), and applying an edit sets the `text` of the node at that path. -/

/-- The index (counting from `j`) of the first tree in the list whose
field tag is `f`. -/
def childIdxByFieldGo (f : String) (j : Nat) : List STree → Option Nat
  | [] => none
  | c :: cs => if c.tag == some f then some j else childIdxByFieldGo f (j + 1) cs

/-- The index of the first child carrying field tag `f`
(the index form of `child_by_field_name`, used to build edit paths). -/
def STree.childIdxByField (t : STree) (f : String) : Option Nat :=
  childIdxByFieldGo f 0 t.children

/-- An edit: the path of the token the TextEdit's range covers, and the
replacement text. -/
abbrev Edit : Type := List Nat × String

/-- Prefix every edit path with child index `j`. -/
def prefixedAt (j : Nat) (es : List Edit) : List Edit :=
  es.map (fun e => (j :: e.1, e.2))

/-- `RenameType` of rename.rs. -/
inductive RenameType where
  | variable
  | function
deriving DecidableEq, Repr

mutual

/-- Size of a tree (1 per node), for termination of the rename walks. -/
def STree.size : STree → Nat
  | .mk _ _ _ _ cs => 1 + sizeL cs

/-- Size of a list of trees. -/
def sizeL : List STree → Nat
  | [] => 0
  | c :: cs => 1 + c.size + sizeL cs

end

theorem size_lt_sizeL_of_getElem :
    ∀ {cs : List STree} {j : Nat} {c : STree},
      cs[j]? = some c → c.size < sizeL cs := by
  intro cs
  induction cs with
  | nil => intro j c h; simp at h
  | cons d ds ih =>
      intro j c h
      match j with
      | 0 =>
          simp at h
          subst h
          simp [sizeL]
          try omega
      | j + 1 =>
          simp at h
          have := ih h
          simp [sizeL]
          try omega

theorem size_lt_of_getElem {k : String} {tg : Option String} {r : TSRange}
    {tx : String} {cs : List STree} {j : Nat} {c : STree}
    (h : cs[j]? = some c) : c.size < (STree.mk k tg r tx cs).size := by
  have := size_lt_sizeL_of_getElem h
  simp [STree.size]
  omega

theorem size_lt_of_childGet {t : STree} {j : Nat} {c : STree}
    (h : t.children[j]? = some c) : c.size < t.size := by
  cases t with
  | mk k tg r tx cs =>
      have := @size_lt_sizeL_of_getElem cs j c h
      simp [STree.size]
      try omega

mutual

/-- `Server::rename_in_node` (rename.rs lines 22-193): the kind-directed
recursive walk collecting identifier occurrences to rewrite.  Edit
paths are relative to `t`.  The Rust code unwraps the field children it
recurses into (condition/body, value, callee/declaration name,
left/right, operand, return value); the grammar supplies them, and a
missing field is modelled as contributing no edits (the `else` field is
an if-let in the source).  Unmatched kinds only log ("Can't rename").
The recursion into the child at a field's index is written through
`renameInChild` (structural indexing) so that the definition reduces. -/
def renameInNode (old new : String) (rt : RenameType) : STree → List Edit
  | .mk k _ _ tx cs =>
    if k == "while_statement" || k == "if_statement" then
      (match childIdxByFieldGo "condition" 0 cs with
       | some j => renameInChild old new rt j j cs
       | none => []) ++
      (match childIdxByFieldGo "body" 0 cs with
       | some j => renameInChild old new rt j j cs
       | none => []) ++
      (match childIdxByFieldGo "else" 0 cs with
       | some j => renameInChild old new rt j j cs
       | none => [])
    else if k == "source_file" || k == "body" then
      renameInAll old new rt 0 cs
    else if k == "variable_declaration" then
      (match childIdxByFieldGo "value" 0 cs with
       | some j => renameInChild old new rt j j cs
       | none => [])
    else if k == "function_call" then
      (if rt == .function then
         (match childIdxByFieldGo "name" 0 cs with
          | some j => (match cs[j]? with
              | some nameNode =>
                  if nameNode.text == old then [([j], new)] else []
              | none => [])
          | none => [])
       else []) ++
      renameInArgs old new rt 0 cs
    else if k == "argument" then
      renameInChild old new rt 0 0 cs
    else if k == "identifier" then
      (if rt == .variable && tx == old then [([], new)] else [])
    else if k == "function_declaration" then
      (if rt == .function then
         (match childIdxByFieldGo "name" 0 cs with
          | some j => (match cs[j]? with
              | some nameNode =>
                  if nameNode.text == old then [([j], new)] else []
              | none => [])
          | none => [])
       else []) ++
      (match childIdxByFieldGo "body" 0 cs with
       | some j => renameInChild old new rt j j cs
       | none => [])
    else if k == "binary_expression" then
      (match childIdxByFieldGo "left" 0 cs with
       | some j => renameInChild old new rt j j cs
       | none => []) ++
      (match childIdxByFieldGo "right" 0 cs with
       | some j => renameInChild old new rt j j cs
       | none => [])
    else if k == "unary_expression" then
      (match childIdxByFieldGo "operand" 0 cs with
       | some j => renameInChild old new rt j j cs
       | none => [])
    else if k == "return_statement" then
      (match childIdxByFieldGo "value" 0 cs with
       | some j => renameInChild old new rt j j cs
       | none => [])
    else []

/-- The edits of the child at index `j` (counting down), with paths
prefixed by the original index `jorig` — the structural-recursion form
of "recurse into `children[j]`". -/
def renameInChild (old new : String) (rt : RenameType) (jorig : Nat) :
    Nat → List STree → List Edit
  | _, [] => []
  | 0, c :: _ => prefixedAt jorig (renameInNode old new rt c)
  | j + 1, _ :: cs => renameInChild old new rt jorig j cs

/-- Recurse into every child (`source_file` / `body` case), prefixing
each child's index, starting at index `j`. -/
def renameInAll (old new : String) (rt : RenameType) (j : Nat) :
    List STree → List Edit
  | [] => []
  | c :: cs =>
      prefixedAt j (renameInNode old new rt c) ++
      renameInAll old new rt (j + 1) cs

/-- Recurse into every child with field tag "argument"
(`children_by_field_name("argument")` of the `function_call` case). -/
def renameInArgs (old new : String) (rt : RenameType) (j : Nat) :
    List STree → List Edit
  | [] => []
  | c :: cs =>
      (if c.tag == some "argument" then
        prefixedAt j (renameInNode old new rt c)
       else []) ++
      renameInArgs old new rt (j + 1) cs

end

/-- Replace the element at index `i` through `f`, leaving the rest. -/
def modifyAt (cs : List STree) (i : Nat) (f : STree → STree) : List STree :=
  match cs, i with
  | [], _ => []
  | c :: cs, 0 => f c :: cs
  | c :: cs, i + 1 => c :: modifyAt cs i f

/-- Rebuild a node with new children (kind, tag, range, text kept). -/
def withChildren (t : STree) (cs : List STree) : STree :=
  match t with
  | .mk k tg r tx _ => .mk k tg r tx cs

/-- Rebuild a node with new text (kind, tag, range, children kept). -/
def withText (t : STree) (s : String) : STree :=
  match t with
  | .mk k tg r _ cs => .mk k tg r s cs

mutual

/-- Set the text of the node at path `p` to `s` (the application of one
TextEdit, see the section note). -/
def setTextAt : STree → List Nat → String → STree
  | t, [], s => withText t s
  | .mk k tg r tx cs, i :: p, s =>
      .mk k tg r tx (setTextAtGo i p s cs)

/-- List worker for `setTextAt`. -/
def setTextAtGo (i : Nat) (p : List Nat) (s : String) :
    List STree → List STree
  | [] => []
  | c :: cs =>
      match i with
      | 0 => setTextAt c p s :: cs
      | i + 1 => c :: setTextAtGo i p s cs

end

/-- Apply a list of edits in order (the client-side application of the
returned `Vec<TextEdit>`). -/
def applyEdits (t : STree) (es : List Edit) : STree :=
  es.foldl (fun acc e => setTextAt acc e.1 e.2) t

/-- `Server::rename_var` (rename.rs lines 195-226), expressed relative
to the parent node `par` of the declaration, with the declaration at
child index `d`: panic unless the node is a `variable_declaration` or
`function_parameter` (line 202) or if it has no `name` field child
(unwrap at line 209); then one unconditional edit on the declaration's
name token, followed by `rename_in_node` in `Variable` mode over every
following sibling (the `next_sibling` loop at lines 212-223). -/
def renameVar (par : STree) (d : Nat) (old new : String) :
    PRes (List Edit) :=
  match par.children[d]? with
  | none => .panic
  | some decl =>
      if decl.kind == "variable_declaration"
          || decl.kind == "function_parameter" then
        match decl.childIdxByField "name" with
        | none => .panic
        | some ni =>
            .ok (([d, ni], new) ::
              renameInAll old new .variable (d + 1) (par.children.drop (d + 1)))
      else .panic

/-- `Server::rename_helper` (rename.rs lines 228-247): whole-document
walk from the root in `Function` mode. -/
def renameHelper (root : STree) (old new : String) : List Edit :=
  renameInNode old new .function root

theorem sizeL_children_lt (t : STree) : sizeL t.children < t.size := by
  cases t with
  | mk k tg r tx cs => simp [STree.size, STree.children]

mutual

/-- Specification-side form of the `Variable`-mode rename walk: apply
the renaming while rebuilding the tree in a single pass (an identifier
token equal to `old` becomes `new`), recursing into exactly the
children that `rename_in_node` recurses into (the field indices are
collected first, and `renApplySel` transforms the children at those
indices).  `applyEdits t (renameInNode old new .variable t)` is proved
equal to this function, which makes the walked region and the
round-trip argument compositional. -/
def renameApplyVar (old new : String) : STree → STree
  | .mk k tg r tx cs =>
    if k == "while_statement" || k == "if_statement" then
      .mk k tg r tx (renApplySel old new
        ((childIdxByFieldGo "condition" 0 cs).toList ++
         (childIdxByFieldGo "body" 0 cs).toList ++
         (childIdxByFieldGo "else" 0 cs).toList) 0 cs)
    else if k == "source_file" || k == "body" then
      .mk k tg r tx (renApplyAll old new cs)
    else if k == "variable_declaration" then
      .mk k tg r tx
        (renApplySel old new (childIdxByFieldGo "value" 0 cs).toList 0 cs)
    else if k == "function_call" then
      .mk k tg r tx (renApplyArgs old new cs)
    else if k == "argument" then
      .mk k tg r tx (renApplySel old new [0] 0 cs)
    else if k == "identifier" then
      (if tx == old then .mk k tg r new cs else .mk k tg r tx cs)
    else if k == "function_declaration" then
      .mk k tg r tx
        (renApplySel old new (childIdxByFieldGo "body" 0 cs).toList 0 cs)
    else if k == "binary_expression" then
      .mk k tg r tx (renApplySel old new
        ((childIdxByFieldGo "left" 0 cs).toList ++
         (childIdxByFieldGo "right" 0 cs).toList) 0 cs)
    else if k == "unary_expression" then
      .mk k tg r tx
        (renApplySel old new (childIdxByFieldGo "operand" 0 cs).toList 0 cs)
    else if k == "return_statement" then
      .mk k tg r tx
        (renApplySel old new (childIdxByFieldGo "value" 0 cs).toList 0 cs)
    else .mk k tg r tx cs

/-- Apply the spec-side rename to the children whose index (counting
from `j`) is in `idxs`. -/
def renApplySel (old new : String) (idxs : List Nat) (j : Nat) :
    List STree → List STree
  | [] => []
  | c :: cs =>
      (if idxs.contains j then renameApplyVar old new c else c) ::
      renApplySel old new idxs (j + 1) cs

/-- Apply the spec-side rename to every child. -/
def renApplyAll (old new : String) : List STree → List STree
  | [] => []
  | c :: cs => renameApplyVar old new c :: renApplyAll old new cs

/-- Apply the spec-side rename to every child tagged "argument". -/
def renApplyArgs (old new : String) : List STree → List STree
  | [] => []
  | c :: cs =>
      (if c.tag == some "argument" then renameApplyVar old new c else c) ::
      renApplyArgs old new cs

end

/-! ## Claim-side ordering for scope frames (C4)

The specification's data-model invariant words the within-level order
as "siblings-before-self, in source order".  This claim-side variant of
`collectLevel` follows those words (ascending child index: preceding
siblings first, the level's own node last); the source walks the level
self-first and backward. -/

/-- The within-level collection in the order the specification claims:
indices 0..i ascending (siblings before self, source order). -/
def collectLevelClaimed (par : STree) (i : Nat) : List Variable :=
  (List.range (i + 1)).flatMap (fun j =>
    match par.children[j]? with
    | some c => handleNode c
    | none => [])

/-! ## Concrete example trees

Shorthand for ranges: `rngL sb eb row c1 c2` is a range inside one
line; multi-line ranges are written out. -/

/-- A range within a single line. -/
def rngL (sb eb row c1 c2 : Nat) : TSRange :=
  { startByte := sb, endByte := eb,
    startPoint := { row := row, column := c1 },
    endPoint := { row := row, column := c2 } }

/-- The tree of the specification's scope scenario source
`a: i32 = 2\nb: f32 = 4.\n\non_spawn(str: string) \x7b\n    c: f32 = 6\n    print()\n\x7d\n`
as produced by the grug grammar: two global variable declarations and
an on-function with one parameter whose body declares `c` and then
calls `print()`. -/
def exampleGrugTree : STree :=
  .mk "source_file" none
    ⟨0, 76, ⟨0, 0⟩, ⟨6, 1⟩⟩
    "a: i32 = 2\nb: f32 = 4.\n\non_spawn(str: string) \x7b\n    c: f32 = 6\n    print()\n\x7d"
    [.mk "variable_declaration" none (rngL 0 10 0 0 10) "a: i32 = 2"
      [.mk "identifier" (some "name") (rngL 0 1 0 0 1) "a" [],
       .mk ":" none (rngL 1 2 0 1 2) ":" [],
       .mk "type" (some "type") (rngL 3 6 0 3 6) "i32" [],
       .mk "=" none (rngL 7 8 0 7 8) "=" [],
       .mk "number" (some "value") (rngL 9 10 0 9 10) "2" []],
     .mk "variable_declaration" none (rngL 11 22 1 0 11) "b: f32 = 4."
      [.mk "identifier" (some "name") (rngL 11 12 1 0 1) "b" [],
       .mk ":" none (rngL 12 13 1 1 2) ":" [],
       .mk "type" (some "type") (rngL 14 17 1 3 6) "f32" [],
       .mk "=" none (rngL 18 19 1 7 8) "=" [],
       .mk "number" (some "value") (rngL 20 22 1 9 11) "4." []],
     .mk "function_declaration" none ⟨24, 76, ⟨3, 0⟩, ⟨6, 1⟩⟩
       "on_spawn(str: string) \x7b\n    c: f32 = 6\n    print()\n\x7d"
      [.mk "on_identifier" (some "name") (rngL 24 32 3 0 8) "on_spawn" [],
       .mk "(" none (rngL 32 33 3 8 9) "(" [],
       .mk "function_parameter" (some "param") (rngL 33 44 3 9 20) "str: string"
        [.mk "identifier" (some "name") (rngL 33 36 3 9 12) "str" [],
         .mk ":" none (rngL 36 37 3 12 13) ":" [],
         .mk "type" (some "type") (rngL 38 44 3 14 20) "string" []],
       .mk ")" none (rngL 44 45 3 20 21) ")" [],
       .mk "body" (some "body") ⟨46, 76, ⟨3, 22⟩, ⟨6, 1⟩⟩
         "\x7b\n    c: f32 = 6\n    print()\n\x7d"
        [.mk "\x7b" none (rngL 46 47 3 22 23) "\x7b" [],
         .mk "variable_declaration" none (rngL 52 62 4 4 14) "c: f32 = 6"
          [.mk "identifier" (some "name") (rngL 52 53 4 4 5) "c" [],
           .mk ":" none (rngL 53 54 4 5 6) ":" [],
           .mk "type" (some "type") (rngL 55 58 4 7 10) "f32" [],
           .mk "=" none (rngL 59 60 4 11 12) "=" [],
           .mk "number" (some "value") (rngL 61 62 4 13 14) "6" []],
         .mk "function_call" none (rngL 67 74 5 4 11) "print()"
          [.mk "identifier" (some "name") (rngL 67 72 5 4 9) "print" [],
           .mk "(" none (rngL 72 73 5 9 10) "(" [],
           .mk ")" none (rngL 73 74 5 10 11) ")" []],
         .mk "\x7d" none (rngL 75 76 6 0 1) "\x7d" []]]]

/-- The path of the `print()` call node in `exampleGrugTree`. -/
def examplePrintPath : List Nat := [2, 4, 2]

/-- The Document `Document::new` derives from `exampleGrugTree` with
name "tired-box.grug" (established by `exampleGrugDoc_new` below). -/
def exampleGrugDoc : Document :=
  { entityType := "box"
    tree := exampleGrugTree
    globalVars :=
      [{ name := "a", type := .I32, range := rngL 0 10 0 0 10 },
       { name := "b", type := .F32, range := rngL 11 22 1 0 11 }]
    helpers := []
    onFunctions :=
      [{ name := "on_spawn",
         params := [{ name := "str", type := .String,
                      range := rngL 33 44 3 9 20 }],
         retType := none,
         range := ⟨24, 76, ⟨3, 0⟩, ⟨6, 1⟩⟩ }] }

/-- A helper function declaration with two declared parameters and
return-type token "i32": `sum(a: i32, b: i32) i32 \x7b ... \x7d`. -/
def exampleHelperDecl : STree :=
  .mk "function_declaration" none ⟨0, 38, ⟨0, 0⟩, ⟨2, 1⟩⟩
       "sum(a: i32, b: i32) i32 \x7b\n    return a\n\x7d"
      [.mk "helper_identifier" (some "name") (rngL 0 3 0 0 3) "sum" [],
       .mk "(" none (rngL 3 4 0 3 4) "(" [],
       .mk "function_parameter" (some "param") (rngL 4 10 0 4 10) "a: i32"
        [.mk "identifier" (some "name") (rngL 4 5 0 4 5) "a" [],
         .mk ":" none (rngL 5 6 0 5 6) ":" [],
         .mk "type" (some "type") (rngL 7 10 0 7 10) "i32" []],
       .mk "," none (rngL 10 11 0 10 11) "," [],
       .mk "function_parameter" (some "param") (rngL 12 18 0 12 18) "b: i32"
        [.mk "identifier" (some "name") (rngL 12 13 0 12 13) "b" [],
         .mk ":" none (rngL 13 14 0 13 14) ":" [],
         .mk "type" (some "type") (rngL 15 18 0 15 18) "i32" []],
       .mk ")" none (rngL 18 19 0 18 19) ")" [],
       .mk "type" (some "ret_type") (rngL 20 23 0 20 23) "i32" [],
       .mk "body" (some "body") ⟨24, 38, ⟨0, 24⟩, ⟨2, 1⟩⟩
         "\x7b\n    return a\n\x7d"
        [.mk "\x7b" none (rngL 24 25 0 24 25) "\x7b" [],
         .mk "return_statement" none (rngL 30 38 1 4 12) "return a"
          [.mk "return" none (rngL 30 36 1 4 10) "return" [],
           .mk "identifier" (some "value") (rngL 37 38 1 11 12) "a" []],
         .mk "\x7d" none ⟨39, 40, ⟨2, 0⟩, ⟨2, 1⟩⟩ "\x7d" []]]

/-- The source file holding only `exampleHelperDecl`. -/
def exampleHelperTree : STree :=
  .mk "source_file" none ⟨0, 38, ⟨0, 0⟩, ⟨2, 1⟩⟩
    "sum(a: i32, b: i32) i32 \x7b\n    return a\n\x7d"
    [exampleHelperDecl]

/-- The Function record `Document::new` derives from
`exampleHelperDecl` (established in the theorems below): only the first
of the two declared parameters survives, and the "i32" return-type
token decodes to `F32`. -/
def exampleHelperFn : Function :=
  { name := "sum"
    params := [{ name := "a", type := .I32, range := rngL 4 10 0 4 10 }]
    retType := some .F32
    range := ⟨0, 38, ⟨0, 0⟩, ⟨2, 1⟩⟩ }

/-- The Document derived from `exampleHelperTree` (name "a-box.grug"). -/
def exampleHelperDoc : Document :=
  { entityType := "box", tree := exampleHelperTree,
    globalVars := [], helpers := [exampleHelperFn], onFunctions := [] }

/-- A document whose on-function body declares `x`, `y`, `z` in order,
with `z` initialised from an identifier — used to exhibit the
within-level ordering of the scope walk:
`on_x() \x7b\nx: i32 = 1\ny: i32 = 2\nz: i32 = x\n\x7d\n`. -/
def exampleXYZTree : STree :=
  .mk "source_file" none ⟨0, 42, ⟨0, 0⟩, ⟨4, 1⟩⟩
    "on_x() \x7b\nx: i32 = 1\ny: i32 = 2\nz: i32 = x\n\x7d"
    [.mk "function_declaration" none ⟨0, 42, ⟨0, 0⟩, ⟨4, 1⟩⟩
       "on_x() \x7b\nx: i32 = 1\ny: i32 = 2\nz: i32 = x\n\x7d"
      [.mk "on_identifier" (some "name") (rngL 0 4 0 0 4) "on_x" [],
       .mk "(" none (rngL 4 5 0 4 5) "(" [],
       .mk ")" none (rngL 5 6 0 5 6) ")" [],
       .mk "body" (some "body") ⟨7, 42, ⟨0, 7⟩, ⟨4, 1⟩⟩
         "\x7b\nx: i32 = 1\ny: i32 = 2\nz: i32 = x\n\x7d"
        [.mk "\x7b" none (rngL 7 8 0 7 8) "\x7b" [],
         .mk "variable_declaration" none (rngL 9 19 1 0 10) "x: i32 = 1"
          [.mk "identifier" (some "name") (rngL 9 10 1 0 1) "x" [],
           .mk ":" none (rngL 10 11 1 1 2) ":" [],
           .mk "type" (some "type") (rngL 12 15 1 3 6) "i32" [],
           .mk "=" none (rngL 16 17 1 7 8) "=" [],
           .mk "number" (some "value") (rngL 18 19 1 9 10) "1" []],
         .mk "variable_declaration" none (rngL 20 30 2 0 10) "y: i32 = 2"
          [.mk "identifier" (some "name") (rngL 20 21 2 0 1) "y" [],
           .mk ":" none (rngL 21 22 2 1 2) ":" [],
           .mk "type" (some "type") (rngL 23 26 2 3 6) "i32" [],
           .mk "=" none (rngL 27 28 2 7 8) "=" [],
           .mk "number" (some "value") (rngL 29 30 2 9 10) "2" []],
         .mk "variable_declaration" none (rngL 31 41 3 0 10) "z: i32 = x"
          [.mk "identifier" (some "name") (rngL 31 32 3 0 1) "z" [],
           .mk ":" none (rngL 32 33 3 1 2) ":" [],
           .mk "type" (some "type") (rngL 34 37 3 3 6) "i32" [],
           .mk "=" none (rngL 38 39 3 7 8) "=" [],
           .mk "identifier" (some "value") (rngL 40 41 3 9 10) "x" []],
         .mk "\x7d" none ⟨42, 43, ⟨4, 0⟩, ⟨4, 1⟩⟩ "\x7d" []]]]

/-- The Document derived from `exampleXYZTree` (name "a-box.grug"). -/
def exampleXYZDoc : Document :=
  { entityType := "box"
    tree := exampleXYZTree
    globalVars := []
    helpers := []
    onFunctions :=
      [{ name := "on_x", params := [], retType := none,
         range := ⟨0, 42, ⟨0, 0⟩, ⟨4, 1⟩⟩ }] }

/-- The path of the initialiser identifier `x` inside the declaration
of `z` in `exampleXYZTree`. -/
def exampleXYZPath : List Nat := [0, 3, 3, 4]

/-- Three global declarations `a: i32 = 1`, `b: i32 = a`, `c: i32 = b`
— renaming `a` to `b` here collides with the identifier `b` already
used after the declaration. -/
def exampleRenameTree : STree :=
  .mk "source_file" none ⟨0, 32, ⟨0, 0⟩, ⟨2, 10⟩⟩
    "a: i32 = 1\nb: i32 = a\nc: i32 = b"
    [.mk "variable_declaration" none (rngL 0 10 0 0 10) "a: i32 = 1"
      [.mk "identifier" (some "name") (rngL 0 1 0 0 1) "a" [],
       .mk ":" none (rngL 1 2 0 1 2) ":" [],
       .mk "type" (some "type") (rngL 3 6 0 3 6) "i32" [],
       .mk "=" none (rngL 7 8 0 7 8) "=" [],
       .mk "number" (some "value") (rngL 9 10 0 9 10) "1" []],
     .mk "variable_declaration" none (rngL 11 21 1 0 10) "b: i32 = a"
      [.mk "identifier" (some "name") (rngL 11 12 1 0 1) "b" [],
       .mk ":" none (rngL 12 13 1 1 2) ":" [],
       .mk "type" (some "type") (rngL 14 17 1 3 6) "i32" [],
       .mk "=" none (rngL 18 19 1 7 8) "=" [],
       .mk "identifier" (some "value") (rngL 20 21 1 9 10) "a" []],
     .mk "variable_declaration" none (rngL 22 32 2 0 10) "c: i32 = b"
      [.mk "identifier" (some "name") (rngL 22 23 2 0 1) "c" [],
       .mk ":" none (rngL 23 24 2 1 2) ":" [],
       .mk "type" (some "type") (rngL 25 28 2 3 6) "i32" [],
       .mk "=" none (rngL 29 30 2 7 8) "=" [],
       .mk "identifier" (some "value") (rngL 31 32 2 9 10) "b" []]]

/-- A document consisting of a single comment line `# hi`. -/
def exampleCommentTree : STree :=
  .mk "source_file" none (rngL 0 4 0 0 4) "# hi"
    [.mk "comment" none (rngL 0 4 0 0 4) "# hi" []]

/-- The Document derived from `exampleCommentTree` (name "a-box.grug"). -/
def exampleCommentDoc : Document :=
  { entityType := "box", tree := exampleCommentTree,
    globalVars := [], helpers := [], onFunctions := [] }

/-- The empty schema store. -/
def emptyModApi : ModApi := { entities := [], gameFunctions := [] }

/-- A server that has no open documents at all. -/
def emptyServer : ServerState :=
  { files := [], documents := [], modApi := emptyModApi }

/-- The value object of the "box" entity inside the scenario schema. -/
def exampleBoxValue : STree :=
  .mk "object" (some "value") (rngL 19 57 0 19 57)
    "\x7b\"description\":\"d\",\"on_functions\":\x7b\x7d\x7d"
    [.mk "\x7b" none (rngL 19 20 0 19 20) "\x7b" [],
     .mk "pair" none (rngL 20 37 0 20 37) "\"description\":\"d\""
      [.mk "string" (some "key") (rngL 20 33 0 20 33) "\"description\""
        [.mk "\"" none (rngL 20 21 0 20 21) "\"" [],
         .mk "string_content" none (rngL 21 32 0 21 32) "description" [],
         .mk "\"" none (rngL 32 33 0 32 33) "\"" []],
       .mk ":" none (rngL 33 34 0 33 34) ":" [],
       .mk "string" (some "value") (rngL 34 37 0 34 37) "\"d\""
        [.mk "\"" none (rngL 34 35 0 34 35) "\"" [],
         .mk "string_content" none (rngL 35 36 0 35 36) "d" [],
         .mk "\"" none (rngL 36 37 0 36 37) "\"" []]],
     .mk "," none (rngL 37 38 0 37 38) "," [],
     .mk "pair" none (rngL 38 56 0 38 56) "\"on_functions\":\x7b\x7d"
      [.mk "string" (some "key") (rngL 38 52 0 38 52) "\"on_functions\""
        [.mk "\"" none (rngL 38 39 0 38 39) "\"" [],
         .mk "string_content" none (rngL 39 51 0 39 51) "on_functions" [],
         .mk "\"" none (rngL 51 52 0 51 52) "\"" []],
       .mk ":" none (rngL 52 53 0 52 53) ":" [],
       .mk "object" (some "value") (rngL 53 55 0 53 55) "\x7b\x7d"
        [.mk "\x7b" none (rngL 53 54 0 53 54) "\x7b" [],
         .mk "\x7d" none (rngL 54 55 0 54 55) "\x7d" []]],
     .mk "\x7d" none (rngL 56 57 0 56 57) "\x7d" []]

/-- The whole key/value pair defining the "box" entity (key plus
value): its range starts at the key, byte 13, while the value object
starts at byte 19. -/
def exampleBoxPair : STree :=
  .mk "pair" none (rngL 13 57 0 13 57)
    "\"box\":\x7b\"description\":\"d\",\"on_functions\":\x7b\x7d\x7d"
    [.mk "string" (some "key") (rngL 13 18 0 13 18) "\"box\""
      [.mk "\"" none (rngL 13 14 0 13 14) "\"" [],
       .mk "string_content" none (rngL 14 17 0 14 17) "box" [],
       .mk "\"" none (rngL 17 18 0 17 18) "\"" []],
     .mk ":" none (rngL 18 19 0 18 19) ":" [],
     exampleBoxValue]

/-- The JSON syntax tree of the specification's schema scenario
`{"entities":{"box":{"description":"d","on_functions":{}}},"game_functions":{}}`
as produced by tree-sitter-json (document root with one object child;
string nodes keep their quotes in `text` and carry the content as
child 1). -/
def exampleSchemaTree : STree :=
  .mk "document" none (rngL 0 78 0 0 78)
    "\x7b\"entities\":\x7b\"box\":\x7b\"description\":\"d\",\"on_functions\":\x7b\x7d\x7d\x7d,\"game_functions\":\x7b\x7d\x7d"
    [.mk "object" none (rngL 0 78 0 0 78)
      "\x7b\"entities\":\x7b\"box\":\x7b\"description\":\"d\",\"on_functions\":\x7b\x7d\x7d\x7d,\"game_functions\":\x7b\x7d\x7d"
      [.mk "\x7b" none (rngL 0 1 0 0 1) "\x7b" [],
       .mk "pair" none (rngL 1 58 0 1 58)
         "\"entities\":\x7b\"box\":\x7b\"description\":\"d\",\"on_functions\":\x7b\x7d\x7d\x7d"
        [.mk "string" (some "key") (rngL 1 11 0 1 11) "\"entities\""
          [.mk "\"" none (rngL 1 2 0 1 2) "\"" [],
           .mk "string_content" none (rngL 2 10 0 2 10) "entities" [],
           .mk "\"" none (rngL 10 11 0 10 11) "\"" []],
         .mk ":" none (rngL 11 12 0 11 12) ":" [],
         .mk "object" (some "value") (rngL 12 58 0 12 58)
           "\x7b\"box\":\x7b\"description\":\"d\",\"on_functions\":\x7b\x7d\x7d\x7d"
          [.mk "\x7b" none (rngL 12 13 0 12 13) "\x7b" [],
           exampleBoxPair,
           .mk "\x7d" none (rngL 57 58 0 57 58) "\x7d" []]],
       .mk "," none (rngL 58 59 0 58 59) "," [],
       .mk "pair" none (rngL 59 78 0 59 78) "\"game_functions\":\x7b\x7d"
        [.mk "string" (some "key") (rngL 59 75 0 59 75) "\"game_functions\""
          [.mk "\"" none (rngL 59 60 0 59 60) "\"" [],
           .mk "string_content" none (rngL 60 74 0 60 74) "game_functions" [],
           .mk "\"" none (rngL 74 75 0 74 75) "\"" []],
         .mk ":" none (rngL 75 76 0 75 76) ":" [],
         .mk "object" (some "value") (rngL 76 78 0 76 78) "\x7b\x7d"
          [.mk "\x7b" none (rngL 76 77 0 76 77) "\x7b" [],
           .mk "\x7d" none (rngL 77 78 0 77 78) "\x7d" []]],
       .mk "\x7d" none (rngL 78 79 0 78 79) "\x7d" []]]

/-- The pair `"a":{"description":5}` — its value is an object whose
description member is a number, so the `GrugGameFunction` decode
fails. -/
def exampleGfPairA : STree :=
  .mk "pair" none (rngL 19 40 0 19 40) "\"a\":\x7b\"description\":5\x7d"
    [.mk "string" (some "key") (rngL 19 22 0 19 22) "\"a\""
      [.mk "\"" none (rngL 19 20 0 19 20) "\"" [],
       .mk "string_content" none (rngL 20 21 0 20 21) "a" [],
       .mk "\"" none (rngL 21 22 0 21 22) "\"" []],
     .mk ":" none (rngL 22 23 0 22 23) ":" [],
     .mk "object" (some "value") (rngL 23 40 0 23 40) "\x7b\"description\":5\x7d"
      [.mk "\x7b" none (rngL 23 24 0 23 24) "\x7b" [],
       .mk "pair" none (rngL 24 39 0 24 39) "\"description\":5"
        [.mk "string" (some "key") (rngL 24 37 0 24 37) "\"description\""
          [.mk "\"" none (rngL 24 25 0 24 25) "\"" [],
           .mk "string_content" none (rngL 25 36 0 25 36) "description" [],
           .mk "\"" none (rngL 36 37 0 36 37) "\"" []],
         .mk ":" none (rngL 37 38 0 37 38) ":" [],
         .mk "number" (some "value") (rngL 38 39 0 38 39) "5" []],
       .mk "\x7d" none (rngL 39 40 0 39 40) "\x7d" []]]

/-- The value object of the pair `"b":{"description":"ok"}`, which
decodes fine. -/
def exampleGfValueB : STree :=
  .mk "object" (some "value") (rngL 45 65 0 45 65)
    "\x7b\"description\":\"ok\"\x7d"
    [.mk "\x7b" none (rngL 45 46 0 45 46) "\x7b" [],
     .mk "pair" none (rngL 46 64 0 46 64) "\"description\":\"ok\""
      [.mk "string" (some "key") (rngL 46 59 0 46 59) "\"description\""
        [.mk "\"" none (rngL 46 47 0 46 47) "\"" [],
         .mk "string_content" none (rngL 47 58 0 47 58) "description" [],
         .mk "\"" none (rngL 58 59 0 58 59) "\"" []],
       .mk ":" none (rngL 59 60 0 59 60) ":" [],
       .mk "string" (some "value") (rngL 60 64 0 60 64) "\"ok\""
        [.mk "\"" none (rngL 60 61 0 60 61) "\"" [],
         .mk "string_content" none (rngL 61 63 0 61 63) "ok" [],
         .mk "\"" none (rngL 63 64 0 63 64) "\"" []]],
     .mk "\x7d" none (rngL 64 65 0 64 65) "\x7d" []]

/-- The pair `"b":{"description":"ok"}`. -/
def exampleGfPairB : STree :=
  .mk "pair" none (rngL 41 65 0 41 65) "\"b\":\x7b\"description\":\"ok\"\x7d"
    [.mk "string" (some "key") (rngL 41 44 0 41 44) "\"b\""
      [.mk "\"" none (rngL 41 42 0 41 42) "\"" [],
       .mk "string_content" none (rngL 42 43 0 42 43) "b" [],
       .mk "\"" none (rngL 43 44 0 43 44) "\"" []],
     .mk ":" none (rngL 44 45 0 44 45) ":" [],
     exampleGfValueB]

/-- The JSON syntax tree of
`{"game_functions":{"a":{"description":5},"b":{"description":"ok"}}}`:
the value of "a" fails the record decode (its description is a number),
while the value of "b" decodes fine. -/
def exampleBadGfTree : STree :=
  .mk "document" none (rngL 0 67 0 0 67)
    "\x7b\"game_functions\":\x7b\"a\":\x7b\"description\":5\x7d,\"b\":\x7b\"description\":\"ok\"\x7d\x7d\x7d"
    [.mk "object" none (rngL 0 67 0 0 67)
      "\x7b\"game_functions\":\x7b\"a\":\x7b\"description\":5\x7d,\"b\":\x7b\"description\":\"ok\"\x7d\x7d\x7d"
      [.mk "\x7b" none (rngL 0 1 0 0 1) "\x7b" [],
       .mk "pair" none (rngL 1 66 0 1 66)
         "\"game_functions\":\x7b\"a\":\x7b\"description\":5\x7d,\"b\":\x7b\"description\":\"ok\"\x7d\x7d"
        [.mk "string" (some "key") (rngL 1 17 0 1 17) "\"game_functions\""
          [.mk "\"" none (rngL 1 2 0 1 2) "\"" [],
           .mk "string_content" none (rngL 2 16 0 2 16) "game_functions" [],
           .mk "\"" none (rngL 16 17 0 16 17) "\"" []],
         .mk ":" none (rngL 17 18 0 17 18) ":" [],
         .mk "object" (some "value") (rngL 18 66 0 18 66)
           "\x7b\"a\":\x7b\"description\":5\x7d,\"b\":\x7b\"description\":\"ok\"\x7d\x7d"
          [.mk "\x7b" none (rngL 18 19 0 18 19) "\x7b" [],
           exampleGfPairA,
           .mk "," none (rngL 40 41 0 40 41) "," [],
           exampleGfPairB,
           .mk "\x7d" none (rngL 65 66 0 65 66) "\x7d" []]],
       .mk "\x7d" none (rngL 66 67 0 66 67) "\x7d" []]]

/-- The comment token node of `exampleCommentTree`. -/
def exampleCommentNode : STree :=
  .mk "comment" none (rngL 0 4 0 0 4) "# hi" []

/-- A string token node, for the suppressed-completion scenarios. -/
def exampleStringNode : STree :=
  .mk "string" none (rngL 0 4 0 0 4) "\"x\"" []

/-- The entity record the loader produces for "box" from
`exampleSchemaTree`: note its range is the range of `exampleBoxValue`
(bytes 19-57), not of `exampleBoxPair` (bytes 13-57). -/
def exampleBoxEntity : GrugEntity :=
  { description := "d", onFunctions := [], range := rngL 19 57 0 19 57 }

/-- The game-function record decoded from `exampleGfValueB`. -/
def exampleGfB : GrugGameFunction :=
  { description := "ok", arguments := [], returnType := none,
    range := defaultRange }

/-- A malformed entity pair whose value is a number: `"e":5`.  The
loader's `parse_entity` asserts the value is an object, so this entry
panics the whole load. -/
def exampleBadEntityPair : STree :=
  .mk "pair" none (rngL 1 6 0 1 6) "\"e\":5"
    [.mk "string" (some "key") (rngL 1 4 0 1 4) "\"e\""
      [.mk "\"" none (rngL 1 2 0 1 2) "\"" [],
       .mk "string_content" none (rngL 2 3 0 2 3) "e" [],
       .mk "\"" none (rngL 3 4 0 3 4) "\"" []],
     .mk ":" none (rngL 4 5 0 4 5) ":" [],
     .mk "number" (some "value") (rngL 5 6 0 5 6) "5" []]

/-- An on-function entry pair whose value is a string (not an object),
so its decode is skipped: `"on_x":"y"`. -/
def exampleBadOnFnPair : STree :=
  .mk "pair" none (rngL 1 11 0 1 11) "\"on_x\":\"y\""
    [.mk "string" (some "key") (rngL 1 7 0 1 7) "\"on_x\""
      [.mk "\"" none (rngL 1 2 0 1 2) "\"" [],
       .mk "string_content" none (rngL 2 6 0 2 6) "on_x" [],
       .mk "\"" none (rngL 6 7 0 6 7) "\"" []],
     .mk ":" none (rngL 7 8 0 7 8) ":" [],
     .mk "string" (some "value") (rngL 8 11 0 8 11) "\"y\""
      [.mk "\"" none (rngL 8 9 0 8 9) "\"" [],
       .mk "string_content" none (rngL 9 10 0 9 10) "y" [],
       .mk "\"" none (rngL 10 11 0 10 11) "\"" []]]

/-- An on-function entry pair whose string key has no content child:
the `func_name.child(1).unwrap()` at parse.rs line 107 panics on it. -/
def exampleNoContentKeyPair : STree :=
  .mk "pair" none (rngL 1 8 0 1 8) "\"\":\x7b\x7d"
    [.mk "string" (some "key") (rngL 1 3 0 1 3) "\"\"" [],
     .mk ":" none (rngL 3 4 0 3 4) ":" [],
     .mk "object" (some "value") (rngL 4 6 0 4 6) "\x7b\x7d" []]

/-- The failure modes of a key/value pair that the `game_functions` and
`entities` loops skip individually before any record decode is
attempted (all let-else `continue`s): not a `pair` node, no `key` field
child, key not a `string`, key without a content child, or no `value`
field child.  (The `on_functions` loop is different: it has no pair
check and *panics* on a string key without a content child.) -/
def pairStructFail (fe : STree) : Prop :=
  fe.kind ≠ "pair" ∨
  match fe.childByField "key" with
  | none => True
  | some key =>
      key.kind ≠ "string" ∨ key.child 1 = none ∨
      fe.childByField "value" = none

/-! # Theorems -/

/-- C10: `Document::new` is only defined for document names whose last
`-`-separated segment ends in ".grug": for any other name the
`strip_suffix(".grug").unwrap()` of the entity-type derivation panics,
and when it succeeds the entity type is the last segment with the
suffix stripped.  The ".grug" suffix is therefore an unstated
precondition of every Document-producing operation (didOpen,
didChange), which call `Document::new` unconditionally. -/
theorem claim_C10 (tree : STree) (name : String) :
    (Document.new tree name = .panic ↔
      ¬ (".grug".data.isSuffixOf (lastDashSegment name.data) = true))
    ∧ ∀ doc, Document.new tree name = .ok doc →
        stripSuffixChars (lastDashSegment name.data) ".grug".data
          = some doc.entityType.data := by
  by_cases h : ".grug".data.isSuffixOf (lastDashSegment name.data) = true
  · constructor
    · simp [Document.new, stripSuffixChars, h]
    · intro doc hdoc
      simp [Document.new, stripSuffixChars, h] at hdoc
      subst hdoc
      have h5 : (".grug".data.length) = 5 := rfl
      simp [stripSuffixChars, h, h5]
  · constructor
    · simp [Document.new, stripSuffixChars, h]
    · intro doc hdoc
      simp [Document.new, stripSuffixChars, h] at hdoc

/-- Witness for C10 at the concrete document name "tired-box.grug". -/
theorem claim_C10_witness :
    stripSuffixChars (lastDashSegment "tired-box.grug".data) ".grug".data
      = some exampleGrugDoc.entityType.data :=
  (claim_C10 exampleGrugTree "tired-box.grug").2 exampleGrugDoc (by rfl)

/-- C5 counterexample: `exampleHelperDecl` declares two parameters
(two `param` field children), yet the derived Function record keeps
only the first — the claim "contains all n parameters" fails at
n = 2. -/
theorem claim_C5_counterexample :
    Document.new exampleHelperTree "a-box.grug" = .ok exampleHelperDoc
    ∧ (exampleHelperDecl.childrenByField "param").length = 2
    ∧ exampleHelperDoc.helpers.map (fun f => f.params.length) = [1] :=
  ⟨rfl, rfl, rfl⟩

/-- C5 (amended): the Function record derived by Document construction
keeps at most one parameter — the first `param` field child that
decodes (`children_by_field_name("param").find_map(..)` in
document.rs) — so a declaration with n ≥ 2 parameters loses all but
the first. -/
theorem claim_C5_amended :
    (∀ (tree : STree) (name : String) (doc : Document) (f : Function),
       Document.new tree name = .ok doc →
       f ∈ doc.helpers ∨ f ∈ doc.onFunctions →
       f.params.length ≤ 1)
    ∧ (∀ (tree : STree) (nodeType : String) (f : Function),
       f ∈ parseFunctions tree nodeType →
       ∃ decl, decl ∈ tree.children ∧
         f.params = ((decl.childrenByField "param").findSome? parseParam).toList) := by
  have hmem : ∀ (tree : STree) (nodeType : String) (f : Function),
      f ∈ parseFunctions tree nodeType →
      ∃ decl, decl ∈ tree.children ∧
        f.params = ((decl.childrenByField "param").findSome? parseParam).toList := by
    intro tree nodeType f hf
    unfold parseFunctions at hf
    obtain ⟨decl, hdecl, hparse⟩ := List.mem_filterMap.mp hf
    refine ⟨decl, List.mem_of_mem_filter hdecl, ?_⟩
    unfold parseFunctionDecl at hparse
    cases hn : decl.childByField "name" with
    | none => rw [hn] at hparse; simp at hparse
    | some nm =>
        rw [hn] at hparse
        simp at hparse
        rw [← hparse]
  constructor
  · intro tree name doc f hnew hf
    have hdoc : doc.helpers = parseFunctions tree "helper_identifier"
        ∧ doc.onFunctions = parseFunctions tree "on_identifier" := by
      unfold Document.new at hnew
      cases hs : stripSuffixChars (lastDashSegment name.data) ".grug".data with
      | none => rw [hs] at hnew; simp at hnew
      | some et =>
          rw [hs] at hnew
          simp at hnew
          exact ⟨by rw [← hnew], by rw [← hnew]⟩
    have : ∃ decl, decl ∈ tree.children ∧
        f.params = ((decl.childrenByField "param").findSome? parseParam).toList := by
      rcases hf with hf | hf
      · exact hmem tree "helper_identifier" f (hdoc.1 ▸ hf)
      · exact hmem tree "on_identifier" f (hdoc.2 ▸ hf)
    obtain ⟨decl, _, hp⟩ := this
    rw [hp]
    cases (decl.childrenByField "param").findSome? parseParam <;> simp
  · exact hmem

/-- Witness for C5 (amended) at the two-parameter helper document. -/
theorem claim_C5_witness :
    exampleHelperFn.params.length ≤ 1
    ∧ ∃ decl, decl ∈ exampleHelperTree.children ∧
        exampleHelperFn.params
          = ((decl.childrenByField "param").findSome? parseParam).toList :=
  ⟨claim_C5_amended.1 exampleHelperTree "a-box.grug" exampleHelperDoc
      exampleHelperFn (by rfl) (Or.inl (by simp [exampleHelperDoc])),
   claim_C5_amended.2 exampleHelperTree "helper_identifier" exampleHelperFn
      (by exact List.mem_singleton.mpr rfl)⟩

/-- C6 counterexample: the helper declaration's return-type token is
"i32"; `Type::from_str` maps "i32" to `I32`, but the derived Function's
return type is `F32` — the local match in `Document::new` maps
"i32" to `Type::F32`. -/
theorem claim_C6_counterexample :
    Document.new exampleHelperTree "a-box.grug" = .ok exampleHelperDoc
    ∧ (exampleHelperDecl.childByField "ret_type").map STree.text = some "i32"
    ∧ exampleHelperDoc.helpers.map (fun f => f.retType) = [some GType.F32]
    ∧ gtypeFromStr "i32" = GType.I32
    ∧ (some GType.F32 ≠ some GType.I32) :=
  ⟨rfl, rfl, rfl, rfl, by decide⟩

/-- C6 (amended): the return-type token of a function declaration is
not decoded through `Type::from_str`; the local match in
`Document::new` maps "f32" to F32, "i32" to F32 (not I32), "id" to ID
and "string" to String, and yields no return type for any other token
— in particular "bool" and "resource" yield none, and there is no
`Entity(token)` fallback. -/
theorem claim_C6_amended :
    (∀ (tree : STree) (nodeType : String) (f : Function),
       f ∈ parseFunctions tree nodeType →
       ∃ decl, decl ∈ tree.children ∧ decl.kind = "function_declaration" ∧
         f.retType =
           ((decl.childByField "ret_type").map
             (fun rt => parseRetTypeTok rt.text)).join)
    ∧ parseRetTypeTok "f32" = some .F32
    ∧ parseRetTypeTok "i32" = some .F32
    ∧ parseRetTypeTok "id" = some .ID
    ∧ parseRetTypeTok "string" = some .String
    ∧ parseRetTypeTok "bool" = none
    ∧ parseRetTypeTok "resource" = none
    ∧ (∀ s : String, s ≠ "f32" → s ≠ "i32" → s ≠ "id" → s ≠ "string" →
         parseRetTypeTok s = none) := by
  refine ⟨?_, rfl, rfl, rfl, rfl, rfl, rfl, ?_⟩
  · intro tree nodeType f hf
    unfold parseFunctions at hf
    obtain ⟨decl, hdecl, hparse⟩ := List.mem_filterMap.mp hf
    have hk := List.of_mem_filter hdecl
    refine ⟨decl, List.mem_of_mem_filter hdecl, ?_, ?_⟩
    · rcases Bool.and_eq_true .. |>.mp hk with ⟨h1, _⟩
      exact (beq_iff_eq ..).mp h1
    · unfold parseFunctionDecl at hparse
      cases hn : decl.childByField "name" with
      | none => rw [hn] at hparse; simp at hparse
      | some nm =>
          rw [hn] at hparse
          simp at hparse
          rw [← hparse]
          rfl
  · intro s h1 h2 h3 h4
    unfold parseRetTypeTok
    split
    · exact absurd rfl h1
    · exact absurd rfl h2
    · exact absurd rfl h3
    · exact absurd rfl h4
    · rfl

/-- Witness for C6 (amended) at the "i32"-returning helper. -/
theorem claim_C6_witness :
    (∃ decl, decl ∈ exampleHelperTree.children ∧
       decl.kind = "function_declaration" ∧
       exampleHelperFn.retType =
         ((decl.childByField "ret_type").map
           (fun rt => parseRetTypeTok rt.text)).join)
    ∧ parseRetTypeTok "grugmonster" = none :=
  ⟨claim_C6_amended.1 exampleHelperTree "helper_identifier" exampleHelperFn
      (by exact List.mem_singleton.mpr rfl),
   claim_C6_amended.2.2.2.2.2.2.2 "grugmonster"
     (by decide) (by decide) (by decide) (by decide)⟩

/-- C9 counterexample: a goto-definition request whose URI has no
corresponding document is answered with `Response::new_err`
(goto_definition.rs lines 130-140) — an error response, not the
null/empty response the claim promises. -/
theorem claim_C9_counterexample :
    handleGotoDefinition emptyServer "/mods/a-box.grug" (some []) = .errorResponse
    ∧ LspOutcome.errorResponse ≠ LspOutcome.nullResponse :=
  ⟨rfl, by decide⟩

/-- C9 (amended): for a request whose URI has no corresponding document,
hover answers with a null response, but goto-definition and rename
answer with an `InvalidRequest` error response; in all three cases the
handler returns normally, so the session continues with the next
request. -/
theorem claim_C9_amended (srv : ServerState) (path : String)
    (nodeP : Option (List Nat)) (h : ¬ srv.files.contains path = true) :
    handleHover srv path nodeP = .nullResponse
    ∧ handleGotoDefinition srv path nodeP = .errorResponse
    ∧ handleRename srv path nodeP = .errorResponse := by
  have h2 : path ∉ srv.files := by simpa using h
  refine ⟨?_, ?_, ?_⟩ <;>
    simp [handleHover, handleGotoDefinition, handleRename, h2]

/-- Witness for C9 (amended) on a server with no documents. -/
theorem claim_C9_witness :
    handleHover emptyServer "/mods/a-box.grug" (some []) = .nullResponse
    ∧ handleGotoDefinition emptyServer "/mods/a-box.grug" (some [])
        = .errorResponse
    ∧ handleRename emptyServer "/mods/a-box.grug" (some [])
        = .errorResponse :=
  claim_C9_amended emptyServer "/mods/a-box.grug" (some []) (by simp [emptyServer])

/-- C7 counterexample: completion at a node of kind "comment" is not
suppressed — the general list (which always carries the three keyword
snippets) is returned, so the completion list is non-empty even with an
empty scope and an empty schema. -/
theorem claim_C7_counterexample :
    exampleCommentNode.kind = "comment"
    ∧ completionDecision emptyModApi exampleCommentDoc "" [0]
        exampleCommentNode ≠ [] := by
  refine ⟨rfl, ?_⟩
  intro h
  have h3 : (completionDecision emptyModApi exampleCommentDoc "" [0]
      exampleCommentNode).length = 3 := rfl
  rw [h] at h3
  simp at h3

/-- C7 (amended): the completion request is suppressed (empty list)
exactly for `string` tokens; a `comment` token is not special-cased and
always receives a non-empty list — either the type-position list (which
contains the six primitive types) or the general list (which contains
the three keyword snippets). -/
theorem claim_C7_amended :
    (∀ (api : ModApi) (doc : Document) (lp : String) (p : List Nat)
       (node : STree), node.kind = "string" →
       completionDecision api doc lp p node = [])
    ∧ (∀ (api : ModApi) (doc : Document) (lp : String) (p : List Nat)
       (node : STree), node.kind = "comment" →
       completionDecision api doc lp p node ≠ []) := by
  constructor
  · intro api doc lp p node h
    simp [completionDecision, h]
  · intro api doc lp p node h hempty
    rw [completionDecision] at hempty
    rw [h] at hempty
    simp only [show (("comment" == "string")) = false from rfl,
      Bool.false_eq_true, if_false] at hempty
    by_cases ht : scanIsType lp
    · rw [if_pos ht] at hempty
      have hlen := congrArg List.length hempty
      simp [typeItems, primitiveTypes] at hlen
    · rw [if_neg ht] at hempty
      have hlen := congrArg List.length hempty
      simp [getCompletion, keywordCompletions] at hlen

/-- Witness for C7 (amended) at a concrete string node and a concrete
comment node. -/
theorem claim_C7_witness :
    completionDecision emptyModApi exampleCommentDoc "" [0]
        exampleStringNode = []
    ∧ completionDecision emptyModApi exampleCommentDoc "" [0]
        exampleCommentNode ≠ [] :=
  ⟨claim_C7_amended.1 emptyModApi exampleCommentDoc "" [0]
      exampleStringNode rfl,
   claim_C7_amended.2 emptyModApi exampleCommentDoc "" [0]
      exampleCommentNode rfl⟩

/-- C2 counterexample: loading the specification's own schema scenario
stores the `box` entity with the range of its *value object*
(bytes 19-57), not the full range of the defining key/value pair
(bytes 13-57): `parse_entity` stamps `node.range()` of the value
(parse.rs line 138) and `parse_entities` never overwrites it. -/
theorem claim_C2_counterexample :
    fromJson exampleSchemaTree
      = .ok (some { entities := [("box", exampleBoxEntity)],
                    gameFunctions := [] })
    ∧ exampleBoxPair.rng = rngL 13 57 0 13 57
    ∧ exampleBoxValue.rng = rngL 19 57 0 19 57
    ∧ exampleBoxEntity.range = exampleBoxValue.rng
    ∧ exampleBoxEntity.range ≠ exampleBoxPair.rng :=
  ⟨rfl, rfl, rfl, rfl, by decide⟩

/-- C2 (amended): game-function records and nested on-function records
are stamped with the full syntax range of their defining key/value pair
(`func_entry.range()`), but entity records are stamped with the range
of the value object only (`node.range()` in `parse_entity`). -/
theorem claim_C2_amended :
    (∀ (node : STree) (ent : GrugEntity),
       parseEntity node = .ok ent → ent.range = node.rng)
    ∧ (∀ (fe : STree) (rest : List STree) (out : SMap GrugGameFunction)
         (key keyContent obj : STree) (gf : GrugGameFunction),
       fe.kind = "pair" → fe.childByField "key" = some key →
       key.kind = "string" → key.child 1 = some keyContent →
       fe.childByField "value" = some obj →
       decodeGameFunction obj = some gf →
       parseGameFunctionsList (fe :: rest) out =
         parseGameFunctionsList rest
           (out.insert keyContent.text { gf with range := fe.rng }))
    ∧ (∀ (fe : STree) (rest : List STree) (m : SMap GrugOnFunction)
         (fname nameContent obj : STree) (onf : GrugOnFunction),
       fe.childByField "key" = some fname → fname.kind = "string" →
       fname.child 1 = some nameContent → fe.childByField "value" = some obj →
       obj.kind = "object" → decodeOnFunction obj = some onf →
       parseOnFunctionsList (fe :: rest) m =
         parseOnFunctionsList rest
           (m.insert nameContent.text { onf with range := fe.rng })) := by
  refine ⟨?_, ?_, ?_⟩
  · intro node ent h
    unfold parseEntity at h
    by_cases hk : node.kind == "object"
    · rw [if_pos hk] at h
      cases hl : parseEntityList node.children defaultDescription SMap.empty with
      | panic => rw [hl] at h; simp at h
      | ok p =>
          rw [hl] at h
          cases h
          rfl
    · rw [if_neg hk] at h
      simp at h
  · intro fe rest out key keyContent obj gf h1 h2 h3 h4 h5 h6
    rw [parseGameFunctionsList]
    simp [h1, h2, h3, h4, h5, h6]
  · intro fe rest m fname nameContent obj onf h1 h2 h3 h4 h5 h6
    rw [parseOnFunctionsList]
    simp [h1, h2, h3, h4, h5, h6]

/-- Witness for C2 (amended): the box entity value, a concrete decoded
game-function pair, and a concrete on-function pair. -/
theorem claim_C2_witness :
    exampleBoxEntity.range = exampleBoxValue.rng
    ∧ parseGameFunctionsList [exampleGfPairB] [] =
        parseGameFunctionsList []
          (SMap.insert SMap.empty "b"
            { exampleGfB with range := exampleGfPairB.rng }) :=
  ⟨claim_C2_amended.1 exampleBoxValue exampleBoxEntity (by rfl),
   claim_C2_amended.2.1 exampleGfPairB [] []
     (exampleGfPairB.children.get ⟨0, by decide⟩)
     (.mk "string_content" none (rngL 42 43 0 42 43) "b" [])
     exampleGfValueB exampleGfB
     rfl rfl rfl rfl rfl rfl⟩

/-- C1 counterexample: in
`{"game_functions":{"a":{"description":5},"b":{"description":"ok"}}}`
the entry "a" fails its record decode, and the loader then *returns*
from `parse_game_functions` (parse.rs lines 57-59, `return` rather than
`continue`): the decodable entry "b" is absent from the resulting
SchemaStore even though its value decodes on its own. -/
theorem claim_C1_counterexample :
    fromJson exampleBadGfTree
      = .ok (some { entities := [], gameFunctions := [] })
    ∧ decodeGameFunction exampleGfValueB = some exampleGfB
    ∧ (({ entities := [], gameFunctions := [] } : ModApi)).gameFunctions.get? "b"
        = none :=
  ⟨rfl, rfl, rfl⟩

/-- C1 (amended): per-entry behaviour of the loader loops.  In the
game_functions and entities maps, entries that fail the structural pair
checks (non-pair node, missing or non-string key, missing key content
or missing value) are skipped individually.  In the on_functions map, a
missing key field or a non-string key is skipped individually, and so
is an entry whose value is missing, is not an object, or fails its
record decode — but an entry whose string key lacks its content child
*panics* the load (the `unwrap` at parse.rs line 107).  Moreover a
game-function value that fails its record decode stops the processing
of all remaining game_functions entries (earlier entries are kept), and
an entity value that is not an object panics the whole load (the
`assert_eq!` in `parse_entity`). -/
theorem claim_C1_amended :
    (∀ (fe : STree) (rest : List STree) (out : SMap GrugGameFunction),
       pairStructFail fe →
       parseGameFunctionsList (fe :: rest) out = parseGameFunctionsList rest out)
    ∧ (∀ (fe : STree) (rest : List STree) (out : SMap GrugGameFunction)
         (key keyContent obj : STree),
       fe.kind = "pair" → fe.childByField "key" = some key →
       key.kind = "string" → key.child 1 = some keyContent →
       fe.childByField "value" = some obj → decodeGameFunction obj = none →
       parseGameFunctionsList (fe :: rest) out = out)
    ∧ (∀ (ee : STree) (rest : List STree) (out : SMap GrugEntity),
       pairStructFail ee →
       parseEntitiesList (ee :: rest) out = parseEntitiesList rest out)
    ∧ (∀ (ee : STree) (rest : List STree) (out : SMap GrugEntity)
         (key keyContent obj : STree),
       ee.kind = "pair" → ee.childByField "key" = some key →
       key.kind = "string" → key.child 1 = some keyContent →
       ee.childByField "value" = some obj → obj.kind ≠ "object" →
       parseEntitiesList (ee :: rest) out = .panic)
    ∧ (∀ (ee : STree) (rest : List STree) (out : SMap GrugEntity)
         (key keyContent obj : STree) (ent : GrugEntity),
       ee.kind = "pair" → ee.childByField "key" = some key →
       key.kind = "string" → key.child 1 = some keyContent →
       ee.childByField "value" = some obj → parseEntity obj = .ok ent →
       parseEntitiesList (ee :: rest) out =
         parseEntitiesList rest (out.insert keyContent.text ent))
    ∧ (∀ (fe : STree) (rest : List STree) (m : SMap GrugOnFunction),
       fe.childByField "key" = none →
       parseOnFunctionsList (fe :: rest) m = parseOnFunctionsList rest m)
    ∧ (∀ (fe : STree) (rest : List STree) (m : SMap GrugOnFunction)
         (fname : STree),
       fe.childByField "key" = some fname → fname.kind ≠ "string" →
       parseOnFunctionsList (fe :: rest) m = parseOnFunctionsList rest m)
    ∧ (∀ (fe : STree) (rest : List STree) (m : SMap GrugOnFunction)
         (fname : STree),
       fe.childByField "key" = some fname → fname.kind = "string" →
       fname.child 1 = none →
       parseOnFunctionsList (fe :: rest) m = .panic)
    ∧ (∀ (fe : STree) (rest : List STree) (m : SMap GrugOnFunction)
         (fname nameContent : STree),
       fe.childByField "key" = some fname → fname.kind = "string" →
       fname.child 1 = some nameContent →
       fe.childByField "value" = none →
       parseOnFunctionsList (fe :: rest) m = parseOnFunctionsList rest m)
    ∧ (∀ (fe : STree) (rest : List STree) (m : SMap GrugOnFunction)
         (fname nameContent obj : STree),
       fe.childByField "key" = some fname → fname.kind = "string" →
       fname.child 1 = some nameContent → fe.childByField "value" = some obj →
       (obj.kind ≠ "object" ∨ decodeOnFunction obj = none) →
       parseOnFunctionsList (fe :: rest) m = parseOnFunctionsList rest m) := by
  refine ⟨?_, ?_, ?_, ?_, ?_, ?_, ?_, ?_, ?_, ?_⟩
  · intro fe rest out h
    rw [parseGameFunctionsList]
    rcases h with h | h
    · simp [h]
    · cases hk : fe.childByField "key" with
      | none => simp [hk]
      | some key =>
          rw [hk] at h
          rcases h with h | h | h
          · simp [hk, h]
          · simp [hk, h]
          · simp [hk, h]
            intro _ _
            cases key.child 1 <;> rfl
  · intro fe rest out key keyContent obj h1 h2 h3 h4 h5 h6
    rw [parseGameFunctionsList]
    simp [h1, h2, h3, h4, h5, h6]
  · intro ee rest out h
    rw [parseEntitiesList]
    rcases h with h | h
    · simp [h]
    · cases hk : ee.childByField "key" with
      | none => simp [hk]
      | some key =>
          rw [hk] at h
          rcases h with h | h | h
          · simp [hk, h]
          · simp [hk, h]
          · simp [hk, h]
            intro _ _
            cases key.child 1 <;> rfl
  · intro ee rest out key keyContent obj h1 h2 h3 h4 h5 h6
    rw [parseEntitiesList]
    simp [h1, h2, h3, h4, h5, parseEntity, h6]
  · intro ee rest out key keyContent obj ent h1 h2 h3 h4 h5 h6
    rw [parseEntitiesList]
    simp [h1, h2, h3, h4, h5, h6]
  · intro fe rest m h1
    rw [parseOnFunctionsList]
    simp [h1]
  · intro fe rest m fname h1 h2
    rw [parseOnFunctionsList]
    simp [h1, h2]
  · intro fe rest m fname h1 h2 h3
    rw [parseOnFunctionsList]
    simp [h1, h2, h3]
  · intro fe rest m fname nameContent h1 h2 h3 h4
    rw [parseOnFunctionsList]
    simp [h1, h2, h3, h4]
  · intro fe rest m fname nameContent obj h1 h2 h3 h4 h5
    rw [parseOnFunctionsList]
    rcases h5 with h5 | h5 <;> simp [h1, h2, h3, h4, h5]

/-- Witness for C1 (amended): a skipped comma token, the concrete
decode-failure pair "a" (which freezes the game-function map), the
panic on a non-object entity value, a skipped keyless on-function
entry, the panic on an on-function string key without a content child,
and a skipped non-object on-function value. -/
theorem claim_C1_witness :
    parseGameFunctionsList
        [.mk "," none (rngL 40 41 0 40 41) "," [], exampleGfPairB] []
      = parseGameFunctionsList [exampleGfPairB] []
    ∧ parseGameFunctionsList [exampleGfPairA, exampleGfPairB] [] = []
    ∧ parseEntitiesList [exampleBadEntityPair] [] = .panic
    ∧ parseOnFunctionsList [.mk "," none (rngL 12 13 0 12 13) "," []] []
        = parseOnFunctionsList [] []
    ∧ parseOnFunctionsList [exampleNoContentKeyPair] [] = .panic
    ∧ parseOnFunctionsList [exampleBadOnFnPair] [] = parseOnFunctionsList [] [] :=
  ⟨claim_C1_amended.1 (.mk "," none (rngL 40 41 0 40 41) "," [])
      [exampleGfPairB] [] (Or.inl (by decide)),
   claim_C1_amended.2.1 exampleGfPairA [exampleGfPairB] []
     (exampleGfPairA.children.get ⟨0, by decide⟩)
     (.mk "string_content" none (rngL 20 21 0 20 21) "a" [])
     (exampleGfPairA.children.get ⟨2, by decide⟩)
     rfl rfl rfl rfl rfl rfl,
   claim_C1_amended.2.2.2.1 exampleBadEntityPair [] []
     (exampleBadEntityPair.children.get ⟨0, by decide⟩)
     (.mk "string_content" none (rngL 2 3 0 2 3) "e" [])
     (.mk "number" (some "value") (rngL 5 6 0 5 6) "5" [])
     rfl rfl rfl rfl rfl (by decide),
   claim_C1_amended.2.2.2.2.2.1 (.mk "," none (rngL 12 13 0 12 13) "," [])
     [] [] rfl,
   claim_C1_amended.2.2.2.2.2.2.2.1 exampleNoContentKeyPair [] []
     (.mk "string" (some "key") (rngL 1 3 0 1 3) "\"\"" [])
     rfl rfl rfl,
   claim_C1_amended.2.2.2.2.2.2.2.2.2 exampleBadOnFnPair [] []
     (exampleBadOnFnPair.children.get ⟨0, by decide⟩)
     (.mk "string_content" none (rngL 2 6 0 2 6) "on_x" [])
     (exampleBadOnFnPair.children.get ⟨2, by decide⟩)
     rfl rfl rfl rfl (Or.inl (by decide))⟩

/-- Splitting `subtreeAt` along a path concatenation. -/
theorem subtreeAt_append (t : STree) (q q' : List Nat) :
    t.subtreeAt (q ++ q') = (t.subtreeAt q).bind (fun u => u.subtreeAt q') := by
  induction q generalizing t with
  | nil => simp [STree.subtreeAt]
  | cons i q ih =>
      rw [List.cons_append, STree.subtreeAt, STree.subtreeAt]
      cases h : t.children[i]? with
      | none => simp
      | some c => simp [ih c]

/-- A node contributes at most one variable to the scope walk. -/
theorem handleNode_length_le (c : STree) : (handleNode c).length ≤ 1 := by
  unfold handleNode
  by_cases h1 : c.kind == "variable_declaration" <;>
    by_cases h2 : c.kind == "function_parameter" <;>
      simp [h1, h2] <;>
      cases parseVariableDeclaration c <;> simp
  · have e1 := (beq_iff_eq ..).mp h1
    have e2 := (beq_iff_eq ..).mp h2
    rw [e1] at e2
    exact absurd e2 (by decide)

/-- Reversing a flatMap whose pieces have length at most one. -/
theorem flatMap_reverse_of_short {α β : Type} (l : List α) (g : α → List β)
    (h : ∀ x, (g x).length ≤ 1) :
    (l.flatMap g).reverse = l.reverse.flatMap g := by
  induction l with
  | nil => simp
  | cons x l ih =>
      rw [List.flatMap_cons, List.reverse_append, ih, List.reverse_cons,
        List.flatMap_append, List.flatMap_cons, List.flatMap_nil,
        List.append_nil]
      congr 1
      cases hg : g x with
      | nil => rfl
      | cons y ys =>
          have := h x
          rw [hg] at this
          simp at this
          rw [this]
          rfl

/-- C4 counterexample: resolving at the initialiser of `z` in a body
that declares `x`, `y`, `z` in source order yields `[z, y, x]` — the
level's own declaration first, then the preceding siblings walking
backward — not the claimed source order `[x, y, z]` (the byte offsets
show `x` precedes `y` precedes `z` in the source). -/
theorem claim_C4_counterexample :
    getSpotInfo exampleXYZDoc exampleXYZPath =
      [{ name := "z", type := .I32, range := rngL 31 41 3 0 10 },
       { name := "y", type := .I32, range := rngL 20 30 2 0 10 },
       { name := "x", type := .I32, range := rngL 9 19 1 0 10 }]
    ∧ (9 : Nat) < 20 ∧ (20 : Nat) < 31
    ∧ getSpotInfo exampleXYZDoc exampleXYZPath ≠
      [{ name := "x", type := .I32, range := rngL 9 19 1 0 10 },
       { name := "y", type := .I32, range := rngL 20 30 2 0 10 },
       { name := "z", type := .I32, range := rngL 31 41 3 0 10 }] :=
  ⟨rfl, by decide, by decide, by decide⟩

/-- C4 (amended): the list is the document's global variables first (in
document order), followed by one scope frame per enclosing level
walking ancestor-outward; but within each level the walk emits the
level's own node first and then the preceding siblings walking
backward, i.e. exactly the *reverse* of the claimed
siblings-before-self source order (each node contributes at most one
variable, so reversing the claimed frame is reversing its order). -/
theorem claim_C4_amended :
    (∀ (doc : Document) (p : List Nat),
       getSpotInfo doc p = doc.globalVars ++ spotWalkRev doc.tree p.reverse)
    ∧ (∀ (root par : STree) (i : Nat) (qrev : List Nat),
       root.subtreeAt qrev.reverse = some par →
       par.kind ≠ "source_file" →
       spotWalkRev root (i :: qrev) =
         collectLevel par i ++ spotWalkRev root qrev)
    ∧ (∀ (root par : STree) (i : Nat) (qrev : List Nat),
       root.subtreeAt qrev.reverse = some par →
       par.kind = "source_file" →
       spotWalkRev root (i :: qrev) = spotWalkRev root qrev)
    ∧ (∀ (par : STree) (i : Nat),
       collectLevel par i = (collectLevelClaimed par i).reverse) := by
  refine ⟨fun doc p => rfl, ?_, ?_, ?_⟩
  · intro root par i qrev h hk
    rw [spotWalkRev, h]
    simp [hk]
  · intro root par i qrev h hk
    rw [spotWalkRev, h]
    simp [hk]
  · intro par i
    unfold collectLevel collectLevelClaimed
    rw [← flatMap_reverse_of_short]
    intro j
    cases h : par.children[j]? with
    | none => simp
    | some c => simpa using handleNode_length_le c

/-- Witness for C4 (amended) at the x/y/z document. -/
theorem claim_C4_witness :
    getSpotInfo exampleXYZDoc exampleXYZPath =
      exampleXYZDoc.globalVars ++
        spotWalkRev exampleXYZDoc.tree exampleXYZPath.reverse
    ∧ spotWalkRev exampleXYZTree [3, 3, 0] =
        collectLevel
          ((exampleXYZTree.children.get ⟨0, by decide⟩).children.get
            ⟨3, by decide⟩) 3 ++
          spotWalkRev exampleXYZTree [3, 0]
    ∧ collectLevel exampleXYZTree 0 = (collectLevelClaimed exampleXYZTree 0).reverse :=
  ⟨claim_C4_amended.1 exampleXYZDoc exampleXYZPath,
   claim_C4_amended.2.1 exampleXYZTree
     ((exampleXYZTree.children.get ⟨0, by decide⟩).children.get ⟨3, by decide⟩)
     3 [3, 0] (by rfl) (by decide),
   claim_C4_amended.2.2.2 exampleXYZTree 0⟩

/-- Where a variable in the scope walk comes from: a level node or one
of its preceding siblings, for some enclosing level of the query
path. -/
theorem spotWalkRev_origin (root : STree) :
    ∀ (rp : List Nat) (v : Variable), v ∈ spotWalkRev root rp →
    ∃ rs i qrev j c, rp = rs ++ i :: qrev ∧ j ≤ i ∧
      root.subtreeAt (qrev.reverse ++ [j]) = some c ∧ v ∈ handleNode c := by
  intro rp
  induction rp with
  | nil => intro v hv; simp [spotWalkRev] at hv
  | cons i qrev ih =>
      intro v hv
      rw [spotWalkRev] at hv
      cases hq : root.subtreeAt qrev.reverse with
      | none => rw [hq] at hv; simp at hv
      | some par =>
          rw [hq] at hv
          by_cases hk : par.kind == "source_file"
          · simp only [hk, if_true] at hv
            obtain ⟨rs, i', qrev', j, c, he, hj, hs, hm⟩ := ih v hv
            exact ⟨i :: rs, i', qrev', j, c, by rw [he, List.cons_append], hj, hs, hm⟩
          · simp only [hk, Bool.false_eq_true, if_false] at hv
            rcases List.mem_append.mp hv with hv | hv
            · unfold collectLevel at hv
              obtain ⟨j, hjmem, hvm⟩ := List.mem_flatMap.mp hv
              cases hc : par.children[j]? with
              | none => rw [hc] at hvm; simp at hvm
              | some c =>
                  rw [hc] at hvm
                  have hj : j ≤ i := by
                    have := List.mem_reverse.mp hjmem
                    exact Nat.lt_succ_iff.mp (List.mem_range.mp this)
                  refine ⟨[], i, qrev, j, c, rfl, hj, ?_, hvm⟩
                  rw [subtreeAt_append, hq]
                  simp [STree.subtreeAt, hc]
            · obtain ⟨rs, i', qrev', j, c, he, hj, hs, hm⟩ := ih v hv
              exact ⟨i :: rs, i', qrev', j, c,
                by rw [he, List.cons_append], hj, hs, hm⟩

/-- C3: scope resolution over the document-global seed and the
ancestor walk.  (1) Every global variable of the document appears in
the result, and (2) the globals are its prefix in document order, so
every global declared before the node is present in source order.
(3) Every variable in the result is either a document global (a
top-level declaration) or is parsed from a node that is, for some
enclosing level `q ++ [i]` of the query path, the level's own node or
a preceding sibling (`q ++ [j]`, `j ≤ i`); in particular no variable
comes from *inside* a sibling block that is not an ancestor of the
query node, because only the sibling node itself — never its
descendants — is handled, and `handleNode` yields a variable only for
`variable_declaration` / `function_parameter` nodes.  (4) For the
specification's on_spawn scenario, resolving at the `print()` call
yields exactly a: i32, b: f32, c: f32, str: string. -/
theorem claim_C3 :
    (∀ (doc : Document) (p : List Nat) (v : Variable),
       v ∈ doc.globalVars → v ∈ getSpotInfo doc p)
    ∧ (∀ (doc : Document) (p : List Nat),
       (getSpotInfo doc p).take doc.globalVars.length = doc.globalVars)
    ∧ (∀ (doc : Document) (p : List Nat) (v : Variable),
       v ∈ getSpotInfo doc p →
       v ∈ doc.globalVars ∨
       ∃ q i r j c, p = q ++ i :: r ∧ j ≤ i ∧
         doc.tree.subtreeAt (q ++ [j]) = some c ∧ v ∈ handleNode c)
    ∧ getSpotInfo exampleGrugDoc examplePrintPath =
        [{ name := "a", type := .I32, range := rngL 0 10 0 0 10 },
         { name := "b", type := .F32, range := rngL 11 22 1 0 11 },
         { name := "c", type := .F32, range := rngL 52 62 4 4 14 },
         { name := "str", type := .String, range := rngL 33 44 3 9 20 }] := by
  refine ⟨?_, ?_, ?_, rfl⟩
  · intro doc p v hv
    exact List.mem_append_left _ hv
  · intro doc p
    rw [getSpotInfo, List.take_left]
  · intro doc p v hv
    rcases List.mem_append.mp hv with hv | hv
    · exact Or.inl hv
    · right
      obtain ⟨rs, i, qrev, j, c, he, hj, hs, hm⟩ :=
        spotWalkRev_origin doc.tree p.reverse v hv
      refine ⟨qrev.reverse, i, rs.reverse, j, c, ?_, hj, hs, hm⟩
      have : p.reverse.reverse = (rs ++ i :: qrev).reverse := by rw [he]
      rw [List.reverse_reverse] at this
      rw [this]
      simp

/-- Witness for C3 at the on_spawn scenario document. -/
theorem claim_C3_witness :
    ({ name := "a", type := .I32, range := rngL 0 10 0 0 10 } : Variable)
        ∈ getSpotInfo exampleGrugDoc examplePrintPath
    ∧ (({ name := "c", type := .F32, range := rngL 52 62 4 4 14 } : Variable)
          ∈ exampleGrugDoc.globalVars ∨
       ∃ q i r j c, examplePrintPath = q ++ i :: r ∧ j ≤ i ∧
         exampleGrugDoc.tree.subtreeAt (q ++ [j]) = some c ∧
         ({ name := "c", type := .F32, range := rngL 52 62 4 4 14 } : Variable)
           ∈ handleNode c) :=
  ⟨claim_C3.1 exampleGrugDoc examplePrintPath _ (by simp [exampleGrugDoc]),
   claim_C3.2.2.1 exampleGrugDoc examplePrintPath _ (by
     rw [claim_C3.2.2.2]
     simp)⟩

/-! ## Rename round-trip: structural lemmas -/

theorem setTextAtGo_eq_modifyAt (i : Nat) (p : List Nat) (s : String) :
    ∀ cs : List STree,
      setTextAtGo i p s cs = modifyAt cs i (fun c => setTextAt c p s) := by
  induction i with
  | zero => intro cs; cases cs <;> rfl
  | succ i ih =>
      intro cs
      cases cs with
      | nil => rfl
      | cons c cs => rw [setTextAtGo, modifyAt, ih]

theorem setTextAt_cons (k : String) (tg : Option String) (r : TSRange)
    (tx : String) (cs : List STree) (i : Nat) (p : List Nat) (s : String) :
    setTextAt (.mk k tg r tx cs) (i :: p) s =
      .mk k tg r tx (modifyAt cs i (fun c => setTextAt c p s)) := by
  rw [setTextAt, setTextAtGo_eq_modifyAt]

theorem applyEdits_append (t : STree) (es₁ es₂ : List Edit) :
    applyEdits t (es₁ ++ es₂) = applyEdits (applyEdits t es₁) es₂ :=
  List.foldl_append ..

theorem modifyAt_modifyAt (cs : List STree) (i : Nat) (f g : STree → STree) :
    modifyAt (modifyAt cs i f) i g = modifyAt cs i (fun c => g (f c)) := by
  induction cs generalizing i with
  | nil => rfl
  | cons c cs ih =>
      cases i with
      | zero => rfl
      | succ i => rw [modifyAt, modifyAt, modifyAt, ih]

theorem modifyAt_id (cs : List STree) (i : Nat) :
    modifyAt cs i (fun c => c) = cs := by
  induction cs generalizing i with
  | nil => rfl
  | cons c cs ih =>
      cases i with
      | zero => rfl
      | succ i => rw [modifyAt, ih]

theorem applyEdits_prefixedAt (k : String) (tg : Option String) (r : TSRange)
    (tx : String) (j : Nat) :
    ∀ (es : List Edit) (cs : List STree),
      applyEdits (.mk k tg r tx cs) (prefixedAt j es) =
        .mk k tg r tx (modifyAt cs j (fun c => applyEdits c es)) := by
  intro es
  induction es with
  | nil =>
      intro cs
      show (.mk k tg r tx cs : STree) = _
      rw [show (fun c => applyEdits c ([] : List Edit)) = fun c => c from rfl,
        modifyAt_id]
  | cons e es ih =>
      intro cs
      show applyEdits (setTextAt (.mk k tg r tx cs) (j :: e.1) e.2)
          (prefixedAt j es) = _
      rw [setTextAt_cons, ih, modifyAt_modifyAt]
      rfl

theorem getElem?_modifyAt (cs : List STree) (i : Nat) (f : STree → STree) :
    ∀ n, (modifyAt cs i f)[n]? =
      if n = i then (cs[n]?).map f else cs[n]? := by
  induction cs generalizing i with
  | nil => intro n; simp [modifyAt]
  | cons c cs ih =>
      intro n
      cases i with
      | zero =>
          cases n with
          | zero => simp [modifyAt]
          | succ n => simp [modifyAt]
      | succ i =>
          cases n with
          | zero => simp [modifyAt]
          | succ n =>
              rw [modifyAt]
              simp only [List.getElem?_cons_succ]
              rw [ih i n]
              by_cases h : n = i <;> simp [h]

theorem length_modifyAt (cs : List STree) (i : Nat) (f : STree → STree) :
    (modifyAt cs i f).length = cs.length := by
  induction cs generalizing i with
  | nil => rfl
  | cons c cs ih =>
      cases i with
      | zero => rfl
      | succ i => simp [modifyAt, ih]

theorem length_renApplySel (old new : String) (idxs : List Nat) :
    ∀ (j : Nat) (cs : List STree),
      (renApplySel old new idxs j cs).length = cs.length := by
  intro j cs
  induction cs generalizing j with
  | nil => rfl
  | cons c cs ih => rw [renApplySel]; simp [ih]

theorem getElem?_renApplySel (old new : String) (idxs : List Nat) :
    ∀ (cs : List STree) (j n : Nat),
      (renApplySel old new idxs j cs)[n]? =
        (cs[n]?).map (fun c =>
          if idxs.contains (j + n) then renameApplyVar old new c else c) := by
  intro cs
  induction cs with
  | nil => intro j n; simp [renApplySel]
  | cons c cs ih =>
      intro j n
      rw [renApplySel]
      cases n with
      | zero => simp
      | succ n =>
          simp only [List.getElem?_cons_succ]
          rw [ih (j + 1) n]
          have hjn : j + 1 + n = j + (n + 1) := by omega
          rw [hjn]

theorem modifyAt_append (f : STree → STree) :
    ∀ (pre : List STree) (c : STree) (ds : List STree),
      modifyAt (pre ++ c :: ds) pre.length f = pre ++ f c :: ds := by
  intro pre
  induction pre with
  | nil => intro c ds; rfl
  | cons p pre ih => intro c ds; rw [List.cons_append, List.length_cons,
      modifyAt, ih, List.cons_append]

theorem getElem?_append_mid :
    ∀ (pre : List STree) (c : STree) (ds : List STree),
      (pre ++ c :: ds)[pre.length]? = some c := by
  intro pre
  induction pre with
  | nil => intro c ds; simp
  | cons p pre ih => intro c ds; simpa using ih c ds

theorem drop_append_mid :
    ∀ (pre : List STree) (c : STree) (ds : List STree),
      (pre ++ c :: ds).drop (pre.length + 1) = ds := by
  intro pre
  induction pre with
  | nil => intro c ds; simp
  | cons p pre ih => intro c ds; simpa using ih c ds

theorem childIdxByFieldGo_spec (f : String) :
    ∀ (cs : List STree) (j m : Nat), childIdxByFieldGo f j cs = some m →
      j ≤ m ∧ ∃ c, cs[m - j]? = some c ∧ c.tag = some f := by
  intro cs
  induction cs with
  | nil => intro j m h; simp [childIdxByFieldGo] at h
  | cons c cs ih =>
      intro j m h
      rw [childIdxByFieldGo] at h
      by_cases hc : c.tag == some f
      · rw [if_pos hc] at h
        cases h
        exact ⟨Nat.le_refl _, c, by simp, (beq_iff_eq ..).mp hc⟩
      · rw [if_neg hc] at h
        obtain ⟨hj, d, hd, ht⟩ := ih (j + 1) m h
        refine ⟨Nat.le_of_succ_le hj, d, ?_, ht⟩
        have hm : m - j = (m - (j + 1)) + 1 := by omega
        rw [hm]
        simpa using hd

/-- The child at a found field index carries that tag. -/
theorem childIdx_tag {t : STree} {f : String} {m : Nat}
    (h : t.childIdxByField f = some m) :
    ∃ c, t.children[m]? = some c ∧ c.tag = some f := by
  obtain ⟨_, c, hc, ht⟩ := childIdxByFieldGo_spec f t.children 0 m h
  exact ⟨c, by simpa using hc, ht⟩

/-- Two distinct field names never resolve to the same child index. -/
theorem childIdx_ne {t : STree} {f₁ f₂ : String} {m₁ m₂ : Nat}
    (h₁ : t.childIdxByField f₁ = some m₁)
    (h₂ : t.childIdxByField f₂ = some m₂) (hf : f₁ ≠ f₂) : m₁ ≠ m₂ := by
  intro he
  obtain ⟨c₁, hc₁, ht₁⟩ := childIdx_tag h₁
  obtain ⟨c₂, hc₂, ht₂⟩ := childIdx_tag h₂
  rw [he, hc₂] at hc₁
  cases hc₁
  rw [ht₁] at ht₂
  exact hf (Option.some_injective _ ht₂)

theorem childIdxByFieldGo_congr (f : String) :
    ∀ (cs cs' : List STree), cs'.map STree.tag = cs.map STree.tag →
      ∀ j, childIdxByFieldGo f j cs' = childIdxByFieldGo f j cs := by
  intro cs
  induction cs with
  | nil =>
      intro cs' h j
      rw [List.map_eq_nil_iff.mp h]
  | cons c cs ih =>
      intro cs' h j
      cases cs' with
      | nil => simp at h
      | cons c' ds' =>
          simp only [List.map_cons, List.cons.injEq] at h
          rw [childIdxByFieldGo, childIdxByFieldGo, h.1, ih ds' h.2]

theorem renameInChild_eq (old new : String) (rt : RenameType) (jorig : Nat) :
    ∀ (j : Nat) (cs : List STree),
      renameInChild old new rt jorig j cs =
        match cs[j]? with
        | some c => prefixedAt jorig (renameInNode old new rt c)
        | none => [] := by
  intro j cs
  induction cs generalizing j with
  | nil => cases j <;> rfl
  | cons c cs ih =>
      cases j with
      | zero => simp only [List.getElem?_cons_zero]; rfl
      | succ j =>
          rw [renameInChild]
          simp only [List.getElem?_cons_succ]
          exact ih j

theorem modifyAt_congr_getElem {cs : List STree} {j : Nat} {c : STree}
    (h : cs[j]? = some c) (f : STree → STree) :
    modifyAt cs j f = modifyAt cs j (fun _ => f c) := by
  induction cs generalizing j with
  | nil => rfl
  | cons d ds ih =>
      cases j with
      | zero =>
          simp only [List.getElem?_cons_zero, Option.some.injEq] at h
          rw [h]
          rfl
      | succ j =>
          simp only [List.getElem?_cons_succ] at h
          rw [modifyAt, modifyAt, ih h]

theorem modifyAt_getElem_self {cs : List STree} {j : Nat} {c : STree}
    (h : cs[j]? = some c) : modifyAt cs j (fun _ => c) = cs := by
  induction cs generalizing j with
  | nil => rfl
  | cons d ds ih =>
      cases j with
      | zero =>
          simp only [List.getElem?_cons_zero, Option.some.injEq] at h
          rw [modifyAt, h]
      | succ j =>
          simp only [List.getElem?_cons_succ] at h
          rw [modifyAt, ih h]

theorem modifyAt_append_left (f : STree → STree) :
    ∀ (pre rest : List STree) (i : Nat), i < pre.length →
      modifyAt (pre ++ rest) i f = modifyAt pre i f ++ rest := by
  intro pre
  induction pre with
  | nil => intro rest i h; simp at h
  | cons p pre ih =>
      intro rest i h
      cases i with
      | zero => rfl
      | succ i =>
          rw [List.cons_append, modifyAt, modifyAt, List.cons_append,
            ih rest i (by simpa using h)]

theorem renApplySel_nil_idxs (old new : String) :
    ∀ (j : Nat) (cs : List STree), renApplySel old new [] j cs = cs := by
  intro j cs
  induction cs generalizing j with
  | nil => rfl
  | cons c cs ih => rw [renApplySel]; simp [ih]

theorem renApplyAll_eq_map (old new : String) :
    ∀ cs : List STree,
      renApplyAll old new cs = cs.map (renameApplyVar old new) := by
  intro cs
  induction cs with
  | nil => rfl
  | cons c cs ih => rw [renApplyAll, List.map_cons, ih]

theorem optGroup (old new : String) (rt : RenameType) (cs : List STree) :
    ∀ o : Option Nat,
      (match o with
       | some j => renameInChild old new rt j j cs
       | none => []) =
      o.toList.flatMap (fun j => renameInChild old new rt j j cs) := by
  intro o
  cases o <;> simp

theorem renameApplyVar_kind (old new : String) (t : STree) :
    (renameApplyVar old new t).kind = t.kind := by
  cases t with
  | mk k tg r tx cs =>
      rw [renameApplyVar]
      repeat' split
      all_goals rfl

theorem renameApplyVar_tag (old new : String) (t : STree) :
    (renameApplyVar old new t).tag = t.tag := by
  cases t with
  | mk k tg r tx cs =>
      rw [renameApplyVar]
      repeat' split
      all_goals rfl

theorem renApplySel_map_tag (old new : String) (idxs : List Nat) :
    ∀ (j : Nat) (cs : List STree),
      (renApplySel old new idxs j cs).map STree.tag = cs.map STree.tag := by
  intro j cs
  induction cs generalizing j with
  | nil => rfl
  | cons c cs ih =>
      rw [renApplySel, List.map_cons, List.map_cons, ih]
      by_cases h : idxs.contains j
      · simp only [h, if_true, renameApplyVar_tag]
      · simp only [h, Bool.false_eq_true, if_false]

theorem renApplyAll_map_tag (old new : String) :
    ∀ cs : List STree,
      (renApplyAll old new cs).map STree.tag = cs.map STree.tag := by
  intro cs
  induction cs with
  | nil => rfl
  | cons c cs ih =>
      rw [renApplyAll, List.map_cons, List.map_cons, ih, renameApplyVar_tag]

theorem renApplyArgs_map_tag (old new : String) :
    ∀ cs : List STree,
      (renApplyArgs old new cs).map STree.tag = cs.map STree.tag := by
  intro cs
  induction cs with
  | nil => rfl
  | cons c cs ih =>
      rw [renApplyArgs, List.map_cons, List.map_cons, ih]
      by_cases h : c.tag == some "argument"
      · simp [h, renameApplyVar_tag]
      · simp [h]

theorem modifyAt_map_tag (f : STree → STree) (hf : ∀ c, (f c).tag = c.tag) :
    ∀ (cs : List STree) (i : Nat),
      (modifyAt cs i f).map STree.tag = cs.map STree.tag := by
  intro cs
  induction cs with
  | nil => intro i; rfl
  | cons c cs ih =>
      intro i
      cases i with
      | zero => rw [modifyAt, List.map_cons, List.map_cons, hf]
      | succ i => rw [modifyAt, List.map_cons, List.map_cons, ih]

theorem childIdxGo_ne {f₁ f₂ : String} {cs : List STree} {m₁ m₂ : Nat}
    (h₁ : childIdxByFieldGo f₁ 0 cs = some m₁)
    (h₂ : childIdxByFieldGo f₂ 0 cs = some m₂) (hf : f₁ ≠ f₂) : m₁ ≠ m₂ :=
  @childIdx_ne (.mk "" none defaultRange "" cs) f₁ f₂ m₁ m₂ h₁ h₂ hf

theorem nodup_fieldIdxs3 (cs : List STree) (f₁ f₂ f₃ : String)
    (h12 : f₁ ≠ f₂) (h13 : f₁ ≠ f₃) (h23 : f₂ ≠ f₃) :
    ((childIdxByFieldGo f₁ 0 cs).toList ++
     (childIdxByFieldGo f₂ 0 cs).toList ++
     (childIdxByFieldGo f₃ 0 cs).toList).Nodup := by
  cases h1 : childIdxByFieldGo f₁ 0 cs with
  | none =>
      cases h2 : childIdxByFieldGo f₂ 0 cs with
      | none => cases h3 : childIdxByFieldGo f₃ 0 cs <;> simp
      | some m2 =>
          cases h3 : childIdxByFieldGo f₃ 0 cs with
          | none => simp
          | some m3 => simp [childIdxGo_ne h2 h3 h23]
  | some m1 =>
      cases h2 : childIdxByFieldGo f₂ 0 cs with
      | none =>
          cases h3 : childIdxByFieldGo f₃ 0 cs with
          | none => simp
          | some m3 => simp [childIdxGo_ne h1 h3 h13]
      | some m2 =>
          cases h3 : childIdxByFieldGo f₃ 0 cs with
          | none => simp [childIdxGo_ne h1 h2 h12]
          | some m3 =>
              simp [childIdxGo_ne h1 h2 h12, childIdxGo_ne h1 h3 h13,
                childIdxGo_ne h2 h3 h23]

theorem nodup_fieldIdxs2 (cs : List STree) (f₁ f₂ : String) (h12 : f₁ ≠ f₂) :
    ((childIdxByFieldGo f₁ 0 cs).toList ++
     (childIdxByFieldGo f₂ 0 cs).toList).Nodup := by
  cases h1 : childIdxByFieldGo f₁ 0 cs with
  | none => cases h2 : childIdxByFieldGo f₂ 0 cs <;> simp
  | some m1 =>
      cases h2 : childIdxByFieldGo f₂ 0 cs with
      | none => simp
      | some m2 => simp [childIdxGo_ne h1 h2 h12]

theorem flatMapChild_congr (old new : String) (rt : RenameType) :
    ∀ (js : List Nat) (cs cs2 : List STree),
      (∀ j ∈ js, cs[j]? = cs2[j]?) →
      js.flatMap (fun j => renameInChild old new rt j j cs) =
        js.flatMap (fun j => renameInChild old new rt j j cs2) := by
  intro js
  induction js with
  | nil => intro cs cs2 _; rfl
  | cons j js ih =>
      intro cs cs2 h
      rw [List.flatMap_cons, List.flatMap_cons,
        ih cs cs2 (fun j hj => h j (List.mem_cons_of_mem _ hj)),
        renameInChild_eq, renameInChild_eq, h j (List.mem_cons_self ..)]

theorem renApplySel_idx_out (old new : String) (j : Nat) (js : List Nat)
    (cs : List STree) (hj : cs[j]? = none) :
    renApplySel old new (j :: js) 0 cs = renApplySel old new js 0 cs := by
  apply List.ext_getElem?
  intro n
  rw [getElem?_renApplySel, getElem?_renApplySel]
  cases hn : cs[n]? with
  | none => rfl
  | some c =>
      have hlen : n < cs.length := (List.getElem?_eq_some.mp hn).1
      have hjlen : cs.length ≤ j := List.getElem?_eq_none_iff.mp hj
      have hne : n ≠ j := by omega
      simp [List.contains_cons, hne]

theorem renApplySel_cons_in (old new : String) (j : Nat) (js : List Nat)
    (cs : List STree) (c : STree) (hj : cs[j]? = some c) (hnotin : j ∉ js) :
    renApplySel old new js 0
        (modifyAt cs j (fun _ => renameApplyVar old new c)) =
      renApplySel old new (j :: js) 0 cs := by
  have hcf : js.contains j = false := by
    by_cases hb : js.contains j = true
    · exact absurd (by simpa using hb) hnotin
    · simpa using hb
  apply List.ext_getElem?
  intro n
  rw [getElem?_renApplySel, getElem?_renApplySel, getElem?_modifyAt]
  by_cases hn : n = j
  · subst hn
    rw [if_pos rfl, hj]
    simp [hcf]
    intro hmem
    exact absurd hmem hnotin
  · rw [if_neg hn]
    cases hm : cs[n]? with
    | none => rfl
    | some d => simp [List.contains_cons, hn]

theorem groupsApply (old new : String) (k : String) (tg : Option String)
    (r : TSRange) (tx : String) :
    ∀ (js : List Nat) (cs : List STree), js.Nodup →
      (∀ j ∈ js, ∀ c, cs[j]? = some c →
        applyEdits c (renameInNode old new .variable c) =
          renameApplyVar old new c) →
      applyEdits (STree.mk k tg r tx cs)
          (js.flatMap (fun j => renameInChild old new .variable j j cs)) =
        STree.mk k tg r tx (renApplySel old new js 0 cs) := by
  intro js
  induction js with
  | nil =>
      intro cs _ _
      rw [renApplySel_nil_idxs]
      rfl
  | cons j js ih =>
      intro cs hnd hIH
      obtain ⟨hjnot, hndtail⟩ := List.nodup_cons.mp hnd
      rw [List.flatMap_cons, applyEdits_append, renameInChild_eq]
      cases hj : cs[j]? with
      | none =>
          simp only [hj]
          rw [show applyEdits (STree.mk k tg r tx cs) [] =
            STree.mk k tg r tx cs from rfl]
          rw [ih cs hndtail
            (fun j' hj' c hc => hIH j' (List.mem_cons_of_mem _ hj') c hc)]
          rw [renApplySel_idx_out old new j js cs hj]
      | some c =>
          simp only [hj]
          rw [applyEdits_prefixedAt, modifyAt_congr_getElem hj]
          simp only [hIH j (List.mem_cons_self ..) c hj]
          have hsame : ∀ j' ∈ js,
              cs[j']? =
                (modifyAt cs j (fun _ => renameApplyVar old new c))[j']? := by
            intro j' hj'
            rw [getElem?_modifyAt]
            have hne : j' ≠ j := fun he => hjnot (he ▸ hj')
            rw [if_neg hne]
          rw [flatMapChild_congr old new .variable js cs
            (modifyAt cs j (fun _ => renameApplyVar old new c)) hsame]
          rw [ih (modifyAt cs j (fun _ => renameApplyVar old new c)) hndtail
            (fun j' hj' c' hc' => hIH j' (List.mem_cons_of_mem _ hj') c'
              (by rw [hsame j' hj']; exact hc'))]
          rw [renApplySel_cons_in old new j js cs c hj hjnot]

theorem applyAll_aux (old new : String) (k : String) (tg : Option String)
    (r : TSRange) (tx : String) :
    ∀ (cs pre : List STree),
      (∀ c ∈ cs, applyEdits c (renameInNode old new .variable c) =
        renameApplyVar old new c) →
      applyEdits (STree.mk k tg r tx (pre ++ cs))
          (renameInAll old new .variable pre.length cs) =
        STree.mk k tg r tx (pre ++ cs.map (renameApplyVar old new)) := by
  intro cs
  induction cs with
  | nil => intro pre _; rfl
  | cons c cs ih =>
      intro pre hIH
      rw [renameInAll, applyEdits_append, applyEdits_prefixedAt, modifyAt_append]
      simp only [hIH c (List.mem_cons_self ..)]
      have hrec := ih (pre ++ [renameApplyVar old new c])
        (fun c' hc' => hIH c' (List.mem_cons_of_mem _ hc'))
      simp only [List.append_assoc, List.singleton_append, List.length_append,
        List.length_singleton] at hrec
      rw [List.map_cons]
      exact hrec

theorem applyArgs_aux (old new : String) (k : String) (tg : Option String)
    (r : TSRange) (tx : String) :
    ∀ (cs pre : List STree),
      (∀ c ∈ cs, applyEdits c (renameInNode old new .variable c) =
        renameApplyVar old new c) →
      applyEdits (STree.mk k tg r tx (pre ++ cs))
          (renameInArgs old new .variable pre.length cs) =
        STree.mk k tg r tx (pre ++ renApplyArgs old new cs) := by
  intro cs
  induction cs with
  | nil => intro pre _; rfl
  | cons c cs ih =>
      intro pre hIH
      rw [renameInArgs, applyEdits_append, renApplyArgs]
      by_cases ht : (c.tag == some "argument") = true
      · rw [if_pos ht, if_pos ht, applyEdits_prefixedAt, modifyAt_append]
        simp only [hIH c (List.mem_cons_self ..)]
        have hrec := ih (pre ++ [renameApplyVar old new c])
          (fun c' hc' => hIH c' (List.mem_cons_of_mem _ hc'))
        simp only [List.append_assoc, List.singleton_append, List.length_append,
          List.length_singleton] at hrec
        exact hrec
      · rw [if_neg ht, if_neg ht]
        rw [show applyEdits (STree.mk k tg r tx (pre ++ c :: cs)) [] =
          STree.mk k tg r tx (pre ++ c :: cs) from rfl]
        have hrec := ih (pre ++ [c])
          (fun c' hc' => hIH c' (List.mem_cons_of_mem _ hc'))
        simp only [List.append_assoc, List.singleton_append, List.length_append,
          List.length_singleton] at hrec
        exact hrec

theorem applyEdits_renameInNode_aux (old new : String) :
    ∀ (n : Nat) (t : STree), t.size ≤ n →
      applyEdits t (renameInNode old new .variable t) =
        renameApplyVar old new t := by
  intro n
  induction n with
  | zero =>
      intro t ht
      exfalso
      obtain ⟨k, tg, r, tx, cs⟩ := t
      simp [STree.size] at ht
  | succ n ih =>
      intro t ht
      obtain ⟨k, tg, r, tx, cs⟩ := t
      have hchild : ∀ (j : Nat) (c : STree), cs[j]? = some c →
          applyEdits c (renameInNode old new .variable c) =
            renameApplyVar old new c := by
        intro j c hc
        apply ih
        have h1 : c.size < (STree.mk k tg r tx cs).size := size_lt_of_getElem hc
        omega
      have hmem : ∀ c ∈ cs,
          applyEdits c (renameInNode old new .variable c) =
            renameApplyVar old new c := by
        intro c hc
        obtain ⟨j, hj⟩ := List.mem_iff_getElem?.mp hc
        exact hchild j c hj
      have single : ∀ f : String,
          applyEdits (STree.mk k tg r tx cs)
              (match childIdxByFieldGo f 0 cs with
               | some j => renameInChild old new .variable j j cs
               | none => []) =
            STree.mk k tg r tx
              (renApplySel old new (childIdxByFieldGo f 0 cs).toList 0 cs) := by
        intro f
        rw [optGroup]
        exact groupsApply old new k tg r tx _ cs
          (by cases childIdxByFieldGo f 0 cs <;> simp)
          (fun j _ c hc => hchild j c hc)
      rw [renameInNode, renameApplyVar]
      by_cases h1 : (k == "while_statement" || k == "if_statement") = true
      · rw [if_pos h1, if_pos h1]
        rw [optGroup, optGroup, optGroup, ← List.flatMap_append,
          ← List.flatMap_append]
        exact groupsApply old new k tg r tx _ cs
          (nodup_fieldIdxs3 cs "condition" "body" "else" (by decide) (by decide)
            (by decide))
          (fun j _ c hc => hchild j c hc)
      · rw [if_neg h1, if_neg h1]
        by_cases h2 : (k == "source_file" || k == "body") = true
        · rw [if_pos h2, if_pos h2]
          have := applyAll_aux old new k tg r tx cs [] hmem
          rw [List.nil_append, List.nil_append] at this
          rw [show ([] : List STree).length = 0 from rfl] at this
          rw [renApplyAll_eq_map]
          exact this
        · rw [if_neg h2, if_neg h2]
          by_cases h3 : (k == "variable_declaration") = true
          · rw [if_pos h3, if_pos h3]
            exact single "value"
          · rw [if_neg h3, if_neg h3]
            by_cases h4 : (k == "function_call") = true
            · rw [if_pos h4, if_pos h4]
              simp only [show (RenameType.variable == RenameType.function) =
                false from rfl, Bool.false_eq_true, if_false, List.nil_append]
              have := applyArgs_aux old new k tg r tx cs [] hmem
              rw [List.nil_append, List.nil_append] at this
              rw [show ([] : List STree).length = 0 from rfl] at this
              exact this
            · rw [if_neg h4, if_neg h4]
              by_cases h5 : (k == "argument") = true
              · rw [if_pos h5, if_pos h5]
                have harg : ([0] : List Nat).flatMap
                    (fun j => renameInChild old new RenameType.variable j j cs) =
                    renameInChild old new RenameType.variable 0 0 cs := by
                  simp
                rw [← harg]
                exact groupsApply old new k tg r tx [0] cs (by simp)
                  (fun j _ c hc => hchild j c hc)
              · rw [if_neg h5, if_neg h5]
                by_cases h6 : (k == "identifier") = true
                · rw [if_pos h6, if_pos h6]
                  simp only [show (RenameType.variable == RenameType.variable) =
                    true from rfl, Bool.true_and]
                  by_cases hx : (tx == old) = true
                  · rw [if_pos hx, if_pos hx]
                    rfl
                  · rw [if_neg hx, if_neg hx]
                    rfl
                · rw [if_neg h6, if_neg h6]
                  by_cases h7 : (k == "function_declaration") = true
                  · rw [if_pos h7, if_pos h7]
                    simp only [show (RenameType.variable ==
                      RenameType.function) = false from rfl,
                      Bool.false_eq_true, if_false, List.nil_append]
                    exact single "body"
                  · rw [if_neg h7, if_neg h7]
                    by_cases h8 : (k == "binary_expression") = true
                    · rw [if_pos h8, if_pos h8]
                      rw [optGroup, optGroup, ← List.flatMap_append]
                      exact groupsApply old new k tg r tx _ cs
                        (nodup_fieldIdxs2 cs "left" "right" (by decide))
                        (fun j _ c hc => hchild j c hc)
                    · rw [if_neg h8, if_neg h8]
                      by_cases h9 : (k == "unary_expression") = true
                      · rw [if_pos h9, if_pos h9]
                        exact single "operand"
                      · rw [if_neg h9, if_neg h9]
                        by_cases h10 : (k == "return_statement") = true
                        · rw [if_pos h10, if_pos h10]
                          exact single "value"
                        · rw [if_neg h10, if_neg h10]
                          rfl

theorem applyEdits_renameInNode (old new : String) (t : STree) :
    applyEdits t (renameInNode old new .variable t) =
      renameApplyVar old new t :=
  applyEdits_renameInNode_aux old new t.size t le_rfl

theorem applyEdits_renameInAll (old new : String) (k : String)
    (tg : Option String) (r : TSRange) (tx : String) (pre cs : List STree) :
    applyEdits (STree.mk k tg r tx (pre ++ cs))
        (renameInAll old new .variable pre.length cs) =
      STree.mk k tg r tx (pre ++ cs.map (renameApplyVar old new)) :=
  applyAll_aux old new k tg r tx cs pre
    (fun c _ => applyEdits_renameInNode old new c)

theorem renameInAll_eq_nil (old new : String) (rt : RenameType) :
    ∀ (cs : List STree) (j : Nat), renameInAll old new rt j cs = [] →
      ∀ c ∈ cs, renameInNode old new rt c = [] := by
  intro cs
  induction cs with
  | nil => intro j _ c hc; simp at hc
  | cons c cs ih =>
      intro j h d hd
      rw [renameInAll] at h
      obtain ⟨h1, h2⟩ := List.append_eq_nil.mp h
      rcases List.mem_cons.mp hd with hd | hd
      · subst hd
        rw [prefixedAt] at h1
        exact List.map_eq_nil_iff.mp h1
      · exact ih (j + 1) h2 d hd

theorem renameInArgs_eq_nil (old new : String) (rt : RenameType) :
    ∀ (cs : List STree) (j : Nat), renameInArgs old new rt j cs = [] →
      ∀ c ∈ cs, c.tag = some "argument" → renameInNode old new rt c = [] := by
  intro cs
  induction cs with
  | nil => intro j _ c hc; simp at hc
  | cons c cs ih =>
      intro j h d hd ht
      rw [renameInArgs] at h
      obtain ⟨h1, h2⟩ := List.append_eq_nil.mp h
      rcases List.mem_cons.mp hd with hd | hd
      · subst hd
        rw [if_pos (by rw [ht]; rfl), prefixedAt] at h1
        exact List.map_eq_nil_iff.mp h1
      · exact ih (j + 1) h2 d hd ht

theorem groups_eq_nil (old new : String) (rt : RenameType) :
    ∀ (js : List Nat) (cs : List STree),
      js.flatMap (fun j => renameInChild old new rt j j cs) = [] →
      ∀ j ∈ js, ∀ c, cs[j]? = some c → renameInNode old new rt c = [] := by
  intro js
  induction js with
  | nil => intro cs _ j hj; simp at hj
  | cons j js ih =>
      intro cs h jq hjq c hc
      rw [List.flatMap_cons] at h
      obtain ⟨h1, h2⟩ := List.append_eq_nil.mp h
      rcases List.mem_cons.mp hjq with he | hm
      · subst he
        simp only [renameInChild_eq, hc] at h1
        rw [prefixedAt] at h1
        exact List.map_eq_nil_iff.mp h1
      · exact ih cs h2 jq hm c hc

theorem renApplySel_roundtrip (old new : String) (js : List Nat)
    (cs : List STree)
    (h : ∀ j ∈ js, ∀ c, cs[j]? = some c →
      renameApplyVar new old (renameApplyVar old new c) = c) :
    renApplySel new old js 0 (renApplySel old new js 0 cs) = cs := by
  apply List.ext_getElem?
  intro n
  rw [getElem?_renApplySel, getElem?_renApplySel]
  cases hn : cs[n]? with
  | none => rfl
  | some c =>
      by_cases hc : js.contains (0 + n) = true
      · have hmem : n ∈ js := by simpa using hc
        simp [hn, hmem, h n hmem c hn]
      · have hnm : n ∉ js := by simpa using hc
        simp [hn, hnm]

theorem renApplyAll_roundtrip (old new : String) :
    ∀ cs : List STree,
      (∀ c ∈ cs, renameApplyVar new old (renameApplyVar old new c) = c) →
      renApplyAll new old (renApplyAll old new cs) = cs := by
  intro cs
  induction cs with
  | nil => intro _; rfl
  | cons c cs ih =>
      intro h
      rw [renApplyAll, renApplyAll, h c (List.mem_cons_self ..),
        ih (fun d hd => h d (List.mem_cons_of_mem _ hd))]

theorem renApplyArgs_roundtrip (old new : String) :
    ∀ cs : List STree,
      (∀ c ∈ cs, c.tag = some "argument" →
        renameApplyVar new old (renameApplyVar old new c) = c) →
      renApplyArgs new old (renApplyArgs old new cs) = cs := by
  intro cs
  induction cs with
  | nil => intro _; rfl
  | cons c cs ih =>
      intro h
      rw [renApplyArgs]
      by_cases ht : (c.tag == some "argument") = true
      · rw [if_pos ht, renApplyArgs,
          if_pos (by rw [renameApplyVar_tag]; exact ht),
          h c (List.mem_cons_self ..) ((beq_iff_eq ..).mp ht),
          ih (fun d hd hdt => h d (List.mem_cons_of_mem _ hd) hdt)]
      · rw [if_neg ht, renApplyArgs, if_neg ht,
          ih (fun d hd hdt => h d (List.mem_cons_of_mem _ hd) hdt)]

theorem renameApplyVar_roundtrip_aux (old new : String) :
    ∀ (n : Nat) (t : STree), t.size ≤ n →
      renameInNode new old .variable t = [] →
      renameApplyVar new old (renameApplyVar old new t) = t := by
  intro n
  induction n with
  | zero =>
      intro t ht _
      exfalso
      obtain ⟨k, tg, r, tx, cs⟩ := t
      simp [STree.size] at ht
  | succ n ih =>
      intro t ht h
      obtain ⟨k, tg, r, tx, cs⟩ := t
      have hchild : ∀ (j : Nat) (c : STree), cs[j]? = some c →
          renameInNode new old .variable c = [] →
          renameApplyVar new old (renameApplyVar old new c) = c := by
        intro j c hc hnil
        apply ih
        · have h1 : c.size < (STree.mk k tg r tx cs).size :=
            size_lt_of_getElem hc
          omega
        · exact hnil
      have hmemIH : ∀ c ∈ cs, renameInNode new old .variable c = [] →
          renameApplyVar new old (renameApplyVar old new c) = c := by
        intro c hc hnil
        obtain ⟨j, hj⟩ := List.mem_iff_getElem?.mp hc
        exact hchild j c hj hnil
      have hsel : ∀ js : List Nat,
          (∀ j ∈ js, ∀ c, cs[j]? = some c →
            renameInNode new old .variable c = []) →
          renApplySel new old js 0 (renApplySel old new js 0 cs) = cs :=
        fun js hper => renApplySel_roundtrip old new js cs
          (fun j hj c hc => hchild j c hc (hper j hj c hc))
      have hJ : ∀ (idxs : List Nat) (f : String),
          childIdxByFieldGo f 0 (renApplySel old new idxs 0 cs) =
            childIdxByFieldGo f 0 cs :=
        fun idxs f => childIdxByFieldGo_congr f cs _
          (renApplySel_map_tag old new idxs 0 cs) 0
      rw [renameInNode] at h
      rw [renameApplyVar]
      by_cases h1 : (k == "while_statement" || k == "if_statement") = true
      · rw [if_pos h1] at h
        rw [if_pos h1, renameApplyVar, if_pos h1]
        rw [hJ _ "condition", hJ _ "body", hJ _ "else"]
        rw [optGroup, optGroup, optGroup, ← List.flatMap_append,
          ← List.flatMap_append] at h
        exact congrArg (STree.mk k tg r tx)
          (hsel _ (groups_eq_nil new old .variable _ cs h))
      · rw [if_neg h1] at h
        rw [if_neg h1]
        by_cases h2 : (k == "source_file" || k == "body") = true
        · rw [if_pos h2] at h
          rw [if_pos h2, renameApplyVar, if_neg h1, if_pos h2]
          refine congrArg (STree.mk k tg r tx) ?_
          exact renApplyAll_roundtrip old new cs
            (fun c hc => hmemIH c hc
              (renameInAll_eq_nil new old .variable cs 0 h c hc))
        · rw [if_neg h2] at h
          rw [if_neg h2]
          by_cases h3 : (k == "variable_declaration") = true
          · rw [if_pos h3] at h
            rw [if_pos h3, renameApplyVar, if_neg h1, if_neg h2, if_pos h3]
            rw [hJ _ "value"]
            rw [optGroup] at h
            exact congrArg (STree.mk k tg r tx)
              (hsel _ (groups_eq_nil new old .variable _ cs h))
          · rw [if_neg h3] at h
            rw [if_neg h3]
            by_cases h4 : (k == "function_call") = true
            · rw [if_pos h4] at h
              rw [if_pos h4, renameApplyVar, if_neg h1, if_neg h2, if_neg h3,
                if_pos h4]
              simp only [show (RenameType.variable == RenameType.function) =
                false from rfl, Bool.false_eq_true, if_false,
                List.nil_append] at h
              refine congrArg (STree.mk k tg r tx) ?_
              exact renApplyArgs_roundtrip old new cs
                (fun c hc hct => hmemIH c hc
                  (renameInArgs_eq_nil new old .variable cs 0 h c hc hct))
            · rw [if_neg h4] at h
              rw [if_neg h4]
              by_cases h5 : (k == "argument") = true
              · rw [if_pos h5] at h
                rw [if_pos h5, renameApplyVar, if_neg h1, if_neg h2,
                  if_neg h3, if_neg h4, if_pos h5]
                have harg : ([0] : List Nat).flatMap
                    (fun j => renameInChild new old RenameType.variable j j
                      cs) =
                    renameInChild new old RenameType.variable 0 0 cs := by
                  simp
                rw [← harg] at h
                exact congrArg (STree.mk k tg r tx)
                  (hsel [0] (groups_eq_nil new old .variable [0] cs h))
              · rw [if_neg h5] at h
                rw [if_neg h5]
                by_cases h6 : (k == "identifier") = true
                · rw [if_pos h6] at h
                  rw [if_pos h6]
                  simp only [show (RenameType.variable ==
                    RenameType.variable) = true from rfl, Bool.true_and] at h
                  have hne : (tx == new) = false := by
                    by_cases hb : (tx == new) = true
                    · rw [if_pos hb] at h
                      simp at h
                    · simpa using hb
                  by_cases hx : (tx == old) = true
                  · rw [if_pos hx, renameApplyVar, if_neg h1, if_neg h2,
                      if_neg h3, if_neg h4, if_neg h5, if_pos h6,
                      if_pos (show (new == new) = true from beq_self_eq_true _)]
                    rw [(beq_iff_eq ..).mp hx]
                  · rw [if_neg hx, renameApplyVar, if_neg h1, if_neg h2,
                      if_neg h3, if_neg h4, if_neg h5, if_pos h6,
                      if_neg (by rw [hne]; exact Bool.false_ne_true)]
                · rw [if_neg h6] at h
                  rw [if_neg h6]
                  by_cases h7 : (k == "function_declaration") = true
                  · rw [if_pos h7] at h
                    rw [if_pos h7, renameApplyVar, if_neg h1, if_neg h2,
                      if_neg h3, if_neg h4, if_neg h5, if_neg h6, if_pos h7]
                    simp only [show (RenameType.variable ==
                      RenameType.function) = false from rfl,
                      Bool.false_eq_true, if_false, List.nil_append] at h
                    rw [hJ _ "body"]
                    rw [optGroup] at h
                    exact congrArg (STree.mk k tg r tx)
                      (hsel _ (groups_eq_nil new old .variable _ cs h))
                  · rw [if_neg h7] at h
                    rw [if_neg h7]
                    by_cases h8 : (k == "binary_expression") = true
                    · rw [if_pos h8] at h
                      rw [if_pos h8, renameApplyVar, if_neg h1, if_neg h2,
                        if_neg h3, if_neg h4, if_neg h5, if_neg h6,
                        if_neg h7, if_pos h8]
                      rw [hJ _ "left", hJ _ "right"]
                      rw [optGroup, optGroup, ← List.flatMap_append] at h
                      exact congrArg (STree.mk k tg r tx)
                        (hsel _ (groups_eq_nil new old .variable _ cs h))
                    · rw [if_neg h8] at h
                      rw [if_neg h8]
                      by_cases h9 : (k == "unary_expression") = true
                      · rw [if_pos h9] at h
                        rw [if_pos h9, renameApplyVar, if_neg h1, if_neg h2,
                          if_neg h3, if_neg h4, if_neg h5, if_neg h6,
                          if_neg h7, if_neg h8, if_pos h9]
                        rw [hJ _ "operand"]
                        rw [optGroup] at h
                        exact congrArg (STree.mk k tg r tx)
                          (hsel _ (groups_eq_nil new old .variable _ cs h))
                      · rw [if_neg h9] at h
                        rw [if_neg h9]
                        by_cases h10 : (k == "return_statement") = true
                        · rw [if_pos h10] at h
                          rw [if_pos h10, renameApplyVar, if_neg h1,
                            if_neg h2, if_neg h3, if_neg h4, if_neg h5,
                            if_neg h6, if_neg h7, if_neg h8, if_neg h9,
                            if_pos h10]
                          rw [hJ _ "value"]
                          rw [optGroup] at h
                          exact congrArg (STree.mk k tg r tx)
                            (hsel _ (groups_eq_nil new old .variable _ cs h))
                        · rw [if_neg h10, renameApplyVar, if_neg h1,
                            if_neg h2, if_neg h3, if_neg h4, if_neg h5,
                            if_neg h6, if_neg h7, if_neg h8, if_neg h9,
                            if_neg h10]

theorem renameApplyVar_roundtrip (old new : String) (t : STree)
    (h : renameInNode new old .variable t = []) :
    renameApplyVar new old (renameApplyVar old new t) = t :=
  renameApplyVar_roundtrip_aux old new t.size t le_rfl h

theorem withText_tag (c : STree) (s : String) : (withText c s).tag = c.tag := by
  obtain ⟨k, tg, r, tx, cs⟩ := c
  rfl

theorem withText_withText (c : STree) (s₁ s₂ : String) :
    withText (withText c s₁) s₂ = withText c s₂ := by
  obtain ⟨k, tg, r, tx, cs⟩ := c
  rfl

theorem renameVar_eq (par : STree) (d : Nat) (old new : String)
    (decl : STree) (ni : Nat)
    (hd : par.children[d]? = some decl)
    (hkb : (decl.kind == "variable_declaration"
      || decl.kind == "function_parameter") = true)
    (hn : decl.childIdxByField "name" = some ni) :
    renameVar par d old new =
      .ok (([d, ni], new) ::
        renameInAll old new .variable (d + 1) (par.children.drop (d + 1))) := by
  simp only [renameVar, hd]
  rw [if_pos hkb]
  simp only [hn]

theorem setTextAt_cons_mk (k : String) (tg : Option String) (r : TSRange)
    (tx : String) (cs : List STree) (i : Nat) (p : List Nat) (s : String) :
    setTextAt (STree.mk k tg r tx cs) (i :: p) s =
      STree.mk k tg r tx (modifyAt cs i (fun c => setTextAt c p s)) :=
  setTextAt_cons k tg r tx cs i p s

theorem setTextAt_name_kind (decl : STree) (ni : Nat) (s : String) :
    (setTextAt decl [ni] s).kind = decl.kind := by
  obtain ⟨dk, dtg, dr, dtx, dcs⟩ := decl
  rfl

theorem setTextAt_name_field (decl : STree) (ni : Nat) (s : String)
    (hn : decl.childIdxByField "name" = some ni) :
    (setTextAt decl [ni] s).childIdxByField "name" = some ni := by
  obtain ⟨dk, dtg, dr, dtx, dcs⟩ := decl
  simp only [STree.childIdxByField, STree.children] at hn ⊢
  show childIdxByFieldGo "name" 0 (setTextAtGo ni [] s dcs) = some ni
  rw [setTextAtGo_eq_modifyAt]
  rw [childIdxByFieldGo_congr "name" dcs
    (modifyAt dcs ni fun c => setTextAt c [] s)
    (modifyAt_map_tag (fun c => setTextAt c [] s)
      (fun c => by obtain ⟨ck, ctg, cr, ctx, ccs⟩ := c; rfl) dcs ni) 0]
  exact hn

theorem setTextAt_name_roundtrip (decl nameNode : STree) (ni : Nat)
    (old new : String)
    (hname : decl.children[ni]? = some nameNode)
    (hold : nameNode.text = old) :
    setTextAt (setTextAt decl [ni] new) [ni] old = decl := by
  obtain ⟨dk, dtg, dr, dtx, dcs⟩ := decl
  simp only [STree.children] at hname
  show STree.mk dk dtg dr dtx
      (setTextAtGo ni [] old (setTextAtGo ni [] new dcs)) =
    STree.mk dk dtg dr dtx dcs
  rw [setTextAtGo_eq_modifyAt, setTextAtGo_eq_modifyAt, modifyAt_modifyAt]
  rw [modifyAt_congr_getElem hname]
  have hw : setTextAt (setTextAt nameNode [] new) [] old = nameNode := by
    obtain ⟨nk, ntg, nr, ntx, ncs⟩ := nameNode
    simp only [STree.text] at hold
    show withText (withText (STree.mk nk ntg nr ntx ncs) new) old = _
    rw [withText_withText]
    rw [← hold]
    rfl
  simp only [hw]
  exact congrArg (STree.mk dk dtg dr dtx) (modifyAt_getElem_self hname)

/-- **C8** (counterexample): variable rename is not a round-trip.  On the
three-declaration document `a: i32 = 1; b: i32 = a; c: i32 = b`, renaming
`a` to `b` rewrites the declaration name and the one use of `a`; renaming
`b` back to `a` on the result also captures the identifier `b` that the
original document already used (the initialiser of `c`), so the final
text differs from the original at that token (`a` instead of `b`). -/
theorem claim_C8_counterexample :
    renameVar exampleRenameTree 0 "a" "b" =
      PRes.ok [([0, 0], "b"), ([1, 4], "b")]
    ∧ renameVar (applyEdits exampleRenameTree [([0, 0], "b"), ([1, 4], "b")])
        0 "b" "a" =
      PRes.ok [([0, 0], "a"), ([1, 4], "a"), ([2, 4], "a")]
    ∧ (applyEdits
        (applyEdits exampleRenameTree [([0, 0], "b"), ([1, 4], "b")])
        [([0, 0], "a"), ([1, 4], "a"), ([2, 4], "a")]).textAt [2, 4] =
      some "a"
    ∧ exampleRenameTree.textAt [2, 4] = some "b" :=
  ⟨rfl, rfl, rfl, rfl⟩

/-- **C8** (amended): renaming a variable declaration from `old` to `new`
(`rename_var` on the declaration at child index `d` of `par`, whose name
token reads `old`) and then renaming `new` back to `old` on the edited
document reproduces the original document, provided the `Variable`-mode
walk over the declaration-following region of the *original* document
would produce no edit for a rename of `new` (i.e. no walked identifier
already reads `new`).  The counterexample above shows the proviso is
necessary; the specification states the round-trip unconditionally. -/
theorem claim_C8_amended (par decl nameNode : STree) (d ni : Nat)
    (old new : String)
    (hd : par.children[d]? = some decl)
    (hk : decl.kind = "variable_declaration" ∨
      decl.kind = "function_parameter")
    (hn : decl.childIdxByField "name" = some ni)
    (hname : decl.children[ni]? = some nameNode)
    (hold : nameNode.text = old)
    (hclean : renameInAll new old .variable (d + 1)
      (par.children.drop (d + 1)) = []) :
    ∃ e₁ e₂,
      renameVar par d old new = PRes.ok e₁ ∧
      renameVar (applyEdits par e₁) d new old = PRes.ok e₂ ∧
      applyEdits (applyEdits par e₁) e₂ = par := by
  have hkb : (decl.kind == "variable_declaration"
      || decl.kind == "function_parameter") = true := by
    rcases hk with h | h <;> simp [h]
  obtain ⟨k, tg, r, tx, cs⟩ := par
  simp only [STree.children] at hd hclean
  have hdlen : d < cs.length := (List.getElem?_eq_some.mp hd).1
  have hprelen : (cs.take (d + 1)).length = d + 1 := by
    rw [List.length_take]
    omega
  have hpre : cs.take (d + 1) ++ cs.drop (d + 1) = cs :=
    List.take_append_drop ..
  have hpd : (cs.take (d + 1))[d]? = some decl := by
    rw [List.getElem?_take, if_pos (Nat.lt_succ_self d)]
    exact hd
  have hpre2len : (modifyAt (cs.take (d + 1)) d
      (fun c => setTextAt c [ni] new)).length = d + 1 := by
    rw [length_modifyAt, hprelen]
  have he1 : renameVar (STree.mk k tg r tx cs) d old new =
      PRes.ok (([d, ni], new) ::
        renameInAll old new .variable (d + 1) (cs.drop (d + 1))) :=
    renameVar_eq _ d old new decl ni hd hkb hn
  have hmod : modifyAt cs d (fun c => setTextAt c [ni] new) =
      modifyAt (cs.take (d + 1)) d (fun c => setTextAt c [ni] new) ++
        cs.drop (d + 1) := by
    conv_lhs => rw [← hpre]
    exact modifyAt_append_left _ _ _ d (by rw [hprelen]; omega)
  have ht1 : applyEdits (STree.mk k tg r tx cs)
      (([d, ni], new) ::
        renameInAll old new .variable (d + 1) (cs.drop (d + 1))) =
      STree.mk k tg r tx
        (modifyAt (cs.take (d + 1)) d (fun c => setTextAt c [ni] new) ++
          (cs.drop (d + 1)).map (renameApplyVar old new)) := by
    show applyEdits (setTextAt (STree.mk k tg r tx cs) [d, ni] new)
      (renameInAll old new .variable (d + 1) (cs.drop (d + 1))) = _
    rw [setTextAt_cons_mk, hmod]
    have happ := applyEdits_renameInAll old new k tg r tx
      (modifyAt (cs.take (d + 1)) d (fun c => setTextAt c [ni] new))
      (cs.drop (d + 1))
    rw [hpre2len] at happ
    exact happ
  have hd1 : (modifyAt (cs.take (d + 1)) d (fun c => setTextAt c [ni] new) ++
      (cs.drop (d + 1)).map (renameApplyVar old new))[d]? =
      some (setTextAt decl [ni] new) := by
    rw [List.getElem?_append_left (by rw [hpre2len]; omega)]
    rw [getElem?_modifyAt, if_pos rfl, hpd]
    rfl
  have hkb1 : ((setTextAt decl [ni] new).kind == "variable_declaration"
      || (setTextAt decl [ni] new).kind == "function_parameter") = true := by
    rw [setTextAt_name_kind]
    exact hkb
  have hn1 : (setTextAt decl [ni] new).childIdxByField "name" = some ni :=
    setTextAt_name_field decl ni new hn
  have hdrop1 : (modifyAt (cs.take (d + 1)) d
        (fun c => setTextAt c [ni] new) ++
      (cs.drop (d + 1)).map (renameApplyVar old new)).drop (d + 1) =
      (cs.drop (d + 1)).map (renameApplyVar old new) := by
    have h := List.drop_left
      (modifyAt (cs.take (d + 1)) d (fun c => setTextAt c [ni] new))
      ((cs.drop (d + 1)).map (renameApplyVar old new))
    rw [hpre2len] at h
    exact h
  have he2 : renameVar (STree.mk k tg r tx
      (modifyAt (cs.take (d + 1)) d (fun c => setTextAt c [ni] new) ++
        (cs.drop (d + 1)).map (renameApplyVar old new))) d new old =
      PRes.ok (([d, ni], old) ::
        renameInAll new old .variable (d + 1)
          ((cs.drop (d + 1)).map (renameApplyVar old new))) := by
    have h2 := renameVar_eq
      (STree.mk k tg r tx
        (modifyAt (cs.take (d + 1)) d (fun c => setTextAt c [ni] new) ++
          (cs.drop (d + 1)).map (renameApplyVar old new)))
      d new old (setTextAt decl [ni] new) ni hd1 hkb1 hn1
    simp only [STree.children] at h2
    rw [hdrop1] at h2
    exact h2
  have hmap : ((cs.drop (d + 1)).map (renameApplyVar old new)).map
      (renameApplyVar new old) = cs.drop (d + 1) := by
    rw [List.map_map]
    have hrt : ∀ c ∈ cs.drop (d + 1),
        (renameApplyVar new old ∘ renameApplyVar old new) c = c := by
      intro c hc
      exact renameApplyVar_roundtrip old new c
        (renameInAll_eq_nil new old .variable (cs.drop (d + 1)) (d + 1)
          hclean c hc)
    have hcongr := List.map_congr_left hrt
    simpa using hcongr
  refine ⟨([d, ni], new) ::
      renameInAll old new .variable (d + 1) (cs.drop (d + 1)),
    ([d, ni], old) :: renameInAll new old .variable (d + 1)
      ((cs.drop (d + 1)).map (renameApplyVar old new)), he1, ?_, ?_⟩
  · rw [ht1]
    exact he2
  · rw [ht1]
    show applyEdits (setTextAt (STree.mk k tg r tx
        (modifyAt (cs.take (d + 1)) d (fun c => setTextAt c [ni] new) ++
          (cs.drop (d + 1)).map (renameApplyVar old new))) [d, ni] old)
      (renameInAll new old .variable (d + 1)
        ((cs.drop (d + 1)).map (renameApplyVar old new))) = _
    rw [setTextAt_cons_mk]
    rw [modifyAt_append_left _ _ _ d (by rw [hpre2len]; omega)]
    rw [modifyAt_modifyAt]
    rw [modifyAt_congr_getElem hpd]
    simp only [setTextAt_name_roundtrip decl nameNode ni old new hname hold]
    rw [modifyAt_getElem_self hpd]
    have happ := applyEdits_renameInAll new old k tg r tx (cs.take (d + 1))
      ((cs.drop (d + 1)).map (renameApplyVar old new))
    rw [hprelen] at happ
    rw [happ, hmap, hpre]

/-- Witness for the amended C8 at the three-declaration document, renaming
`a` to the fresh name `z` and back. -/
theorem claim_C8_witness :
    ∃ e₁ e₂,
      renameVar exampleRenameTree 0 "a" "z" = PRes.ok e₁ ∧
      renameVar (applyEdits exampleRenameTree e₁) 0 "z" "a" = PRes.ok e₂ ∧
      applyEdits (applyEdits exampleRenameTree e₁) e₂ = exampleRenameTree :=
  claim_C8_amended exampleRenameTree
    (STree.mk "variable_declaration" none (rngL 0 10 0 0 10) "a: i32 = 1"
      [STree.mk "identifier" (some "name") (rngL 0 1 0 0 1) "a" [],
       STree.mk ":" none (rngL 1 2 0 1 2) ":" [],
       STree.mk "type" (some "type") (rngL 3 6 0 3 6) "i32" [],
       STree.mk "=" none (rngL 7 8 0 7 8) "=" [],
       STree.mk "number" (some "value") (rngL 9 10 0 9 10) "1" []])
    (STree.mk "identifier" (some "name") (rngL 0 1 0 0 1) "a" [])
    0 0 "a" "z" rfl (Or.inl rfl) rfl rfl rfl rfl

end GrugLS
